import Mathlib

/-!
The request handler `handle_request` of httpd.c.

A shallow embedding of `handle_request` (src/httpd.c) and of the C library
calls it is built from (`sscanf`, `strcmp`, `strchr`, `strstr`, `strncmp`,
`snprintf`, `strtok`, the `read`/`fwrite` copy loop), followed by theorems
about the responses it writes, the files it opens and the argument vectors it
hands to `execvp`.

Text is a list of characters; a C string is such a list without the NUL
character.  Everything the operating system and the client decide (whether
`fork` succeeds, what the executed program prints, which files exist, which
bytes arrive together with the request line) is a field of `Env`.
-/

namespace Httpd

/-- Text: the bytes of a C string or of a file, in order. -/
abbrev Str := List Char

/-! ## C library -/

/-- The C locale's `isspace`: space, `\t`, `\n`, `\v`, `\f`, `\r`. -/
def isspace (c : Char) : Bool :=
  c == ' ' || c == '\t' || c == '\n' || c == '\x0b' || c == '\x0c' || c == '\r'

/-- The negation of `isspace`, the characters a `%s` conversion stores. -/
def notspace (c : Char) : Bool := !isspace c

/-- The C string held in a buffer: its bytes up to the first NUL.  `getline`
may return a line with NUL bytes in it; `sscanf` reads it as a C string. -/
def cstr (s : Str) : Str := s.takeWhile (fun c => c != '\x00')

/-- One `%Ns` conversion of `sscanf` on the input `s`: white space is skipped,
then the longest run of at most `n` non-white-space characters is stored.
`none` is the input failure (the input ended before a character was stored);
otherwise the stored field and the unread input. -/
def scan_s (n : Nat) (s : Str) : Option (Str × Str) :=
  let s1 := s.dropWhile isspace
  let field := (s1.takeWhile notspace).take n
  if field = [] then none else some (field, s1.drop field.length)

/-- The outcome of `sscanf(line, "%4s %2047s %15s", method, request_uri,
http_version)`: the return value and the three buffers (a buffer that was not
assigned is shown empty). -/
structure Scanned where
  count : Int
  method : Str
  request_uri : Str
  http_version : Str
deriving DecidableEq, Repr

/-- The call `sscanf(line, "%4s %2047s %15s", ...)`.  A blank in the format
skips any white space in the input.  The return value is the number of
fields assigned, or `EOF = -1` when the input ends before the first one. -/
def sscanf_line (s : Str) : Scanned :=
  match scan_s 4 s with
  | none => ⟨-1, [], [], []⟩
  | some (m, r1) =>
    match scan_s 2047 (r1.dropWhile isspace) with
    | none => ⟨1, m, [], []⟩
    | some (u, r2) =>
      match scan_s 15 (r2.dropWhile isspace) with
      | none => ⟨2, m, u, []⟩
      | some (v, _) => ⟨3, m, u, v⟩

/-- The call `strstr(hay, needle) != NULL`. -/
def strstr (hay needle : Str) : Bool :=
  match hay with
  | [] => needle.isEmpty
  | c :: t => needle.isPrefixOf (c :: t) || strstr t needle

/-- The call `strchr(s, c) != NULL`. -/
def strchr (s : Str) (c : Char) : Bool := s.contains c

/-- The output of `snprintf(buf, size, "%s", s)` (or of a format that
prints exactly the text `s`): at most `size - 1` characters are stored. -/
def snprintf (size : Nat) (s : Str) : Str := s.take (size - 1)

/-- One call of `strtok` with the delimiter set `"&"`, on the unscanned text
`s`: leading delimiters are skipped; `none` (NULL) when nothing is left,
otherwise the token up to the next delimiter and the text after that
delimiter, where the next call resumes. -/
def strtok (s : Str) : Option (Str × Str) :=
  let s1 := s.dropWhile (fun c => c == '&')
  if s1 = [] then none
  else some (s1.takeWhile (fun c => c != '&'), (s1.dropWhile (fun c => c != '&')).drop 1)

/-- The decimal text printed by `%d` or `PRId64` for a non-negative number. -/
def fmt_d (n : Nat) : Str := (Nat.repr n).toList

/-! ## White-space separated tokens (the vocabulary of the specification) -/

/-- The white-space separated tokens of `s`, with `fuel` bounding the number
of tokens looked for. -/
def tokens_fuel : Nat → Str → List Str
  | 0, _ => []
  | fuel + 1, s =>
    let s1 := s.dropWhile isspace
    if s1 = [] then [] else s1.takeWhile notspace :: tokens_fuel fuel (s1.dropWhile notspace)

/-- The white-space separated tokens of a line: its maximal runs of
non-white-space characters, in order. -/
def tokens (s : Str) : List Str := tokens_fuel s.length s

/-! ## Responses -/

/-- A response as the handler writes it: the status line (first `fprintf`,
without its `\r\n`), the text printed after `Content-Length: ` and the bytes
written after the blank line.  `Content-Type: text/html` is written on every
path. -/
structure Response where
  status_line : Str
  content_length : Str
  body : Str
deriving DecidableEq, Repr

/-- The status line and headers, through the blank line that ends them: the
first four `fprintf` calls of every response. -/
def Response.head (r : Response) : Str :=
  r.status_line ++ "\r\n".toList ++ "Content-Type: text/html\r\n".toList ++
    "Content-Length: ".toList ++ r.content_length ++ "\r\n".toList ++ "\r\n".toList

/-- All the bytes of a response, in the order they are written. -/
def Response.wire (r : Response) : Str := r.head ++ r.body

/-- Lines 44-48. -/
def bad_request : Response :=
  ⟨"HTTP/1.0 400 Bad Request".toList, "15".toList, "400 Bad Request".toList⟩

/-- Lines 60-64. -/
def not_implemented : Response :=
  ⟨"HTTP/1.0 501 Not Implemented".toList, "19".toList, "501 Not Implemented".toList⟩

/-- Lines 90-94. -/
def forbidden : Response :=
  ⟨"HTTP/1.0 403 Permission Denied".toList, "21".toList, "403 Permission Denied".toList⟩

/-- Lines 141-145, 189-193, 212-216, 229-233, 244-248 and 305-309, which are
the same five `fprintf` calls. -/
def internal_error : Response :=
  ⟨"HTTP/1.0 500 Internal Error".toList, "21".toList, "500 Internal Error".toList⟩

/-- Lines 291-295. -/
def not_found : Response :=
  ⟨"HTTP/1.0 404 Not Found".toList, "13".toList, "404 Not Found".toList⟩

/-- Lines 255-258 and 317-320: the headers of a `200 OK` response for a file
of `st_size` bytes, with the body that follows them. -/
def ok_response (st_size : Nat) (body : Str) : Response :=
  ⟨"HTTP/1.0 200 OK".toList, fmt_d st_size, body⟩

/-- The loop `while ((bytes_read = read(fd, buffer, 1024)) > 0) fwrite(buffer,
1, bytes_read, network)` on a regular file whose unread bytes are `file`:
the bytes written to the connection.  Each `read` returns the next 1024 bytes,
or what is left when that is less. -/
def copy_loop : Nat → Str → Str
  | 0, _ => []
  | fuel + 1, file =>
    let buffer := file.take 1024
    if buffer.length > 0 then buffer ++ copy_loop fuel (file.drop 1024) else []

/-- The copy loop run to its end: a file of `n` bytes takes at most `n`
non-empty reads and one empty read. -/
def copy_file (file : Str) : Str := copy_loop (file.length + 1) file

/-! ## The argument array -/

/-- One element of `char *args[256]`: not yet written, NULL, or a pointer to
a string. -/
inductive Slot where
  | garbage
  | null
  | ptr (s : Str)
deriving DecidableEq, Repr

/-- What stops the model of a loop short of its result: a store outside the
array, or the iteration bound of the model. -/
inductive Fault where
  | out_of_bounds
  | out_of_fuel
deriving DecidableEq, Repr

/-- The array `args` and the counter `arg_count`, with a log of the indices
written and of the values the counter took, in order. -/
structure ArgVec where
  args : List Slot
  arg_count : Nat
  stores : List Nat
  counts : List Nat
deriving DecidableEq, Repr

/-- The store `args[i] = v`; a fault when `i` is outside the array. -/
def args_store (a : ArgVec) (i : Nat) (v : Slot) : Except Fault ArgVec :=
  if i < a.args.length then .ok { a with args := a.args.set i v, stores := a.stores ++ [i] }
  else .error .out_of_bounds

/-- The statement `args[arg_count++] = v`. -/
def args_push (a : ArgVec) (v : Slot) : Except Fault ArgVec :=
  match args_store a a.arg_count v with
  | .error f => .error f
  | .ok a1 => .ok { a1 with arg_count := a1.arg_count + 1, counts := a1.counts ++ [a1.arg_count + 1] }

/-- Lines 116-119: `while (arg != NULL && arg_count < 255) { args[arg_count++]
= arg; arg = strtok(NULL, "&"); }`, where `arg` is the last result of
`strtok`. -/
def args_loop : Nat → Option (Str × Str) → ArgVec → Except Fault ArgVec
  | _, none, a => .ok a
  | 0, some _, a => if a.arg_count < 255 then .error .out_of_fuel else .ok a
  | fuel + 1, some (arg, rest), a =>
    if a.arg_count < 255 then
      match args_push a (.ptr arg) with
      | .error f => .error f
      | .ok a1 => args_loop fuel (strtok rest) a1
    else .ok a

/-- Lines 108-122: the array is declared, the program name stored, the query
(when there is one) split at `&` into the array, and the list terminated. -/
def build_args (program_name : Str) (query : Option Str) : Except Fault ArgVec :=
  let a0 : ArgVec := ⟨List.replicate 256 .garbage, 0, [], [0]⟩
  match args_push a0 (.ptr program_name) with
  | .error f => .error f
  | .ok a1 =>
    let filled : Except Fault ArgVec :=
      match query with
      | none => .ok a1
      | some q => args_loop q.length (strtok q) a1
    match filled with
    | .error f => .error f
    | .ok a2 => args_store a2 a2.arg_count .null

/-- The argument vector a program receives from `execvp(args[0], args)`: the
strings pointed to, up to the first element that is not a string. -/
def argv : List Slot → List Str
  | .ptr s :: rest => s :: argv rest
  | _ => []

/-! ## The environment -/

/-- How a child process ended: `WIFEXITED` with an exit code, or killed by a
signal. -/
inductive Status where
  | exited (code : Nat)
  | signaled (sig : Nat)
deriving DecidableEq, Repr

/-- The test `!WIFEXITED(status) || WEXITSTATUS(status) != 0` of line 210. -/
def child_failed : Status → Bool
  | .exited 0 => false
  | _ => true

/-- The regular files of the working directory: path to contents. -/
abbrev Files := Str → Option Str

/-- The files after `name` is created or rewritten with `bytes`. -/
def Files.put (fs : Files) (name : Str) (bytes : Str) : Files :=
  fun p => if p = name then some bytes else fs p

/-- The files after `unlink(name)`. -/
def Files.remove (fs : Files) (name : Str) : Files :=
  fun p => if p = name then none else fs p

/-- Everything the operating system decides during one call of
`handle_request`. -/
structure Env where
  /-- Whether `fdopen(nfd, "r+")` succeeds. -/
  fdopen_ok : Bool
  /-- The files of the working directory when the request arrives. -/
  fs : Files
  /-- Whether `open(path, O_RDONLY)` of an existing file succeeds. -/
  open_ok : Str → Bool
  /-- Whether `fstat` of the opened file succeeds. -/
  fstat_ok : Str → Bool
  /-- Whether `sigprocmask(SIG_BLOCK, ...)` of line 129 succeeds. -/
  sigblock_ok : Bool
  /-- The call `fork()` of line 137: `none` is the return value -1, `some pid`
  the child's process id returned to the parent. -/
  fork : Option Nat
  /-- Whether, in the child, `open(temp_filename, O_WRONLY | O_CREAT | O_TRUNC)`
  succeeds. -/
  child_open_ok : Bool
  /-- Whether, in the child, `dup2` succeeds. -/
  dup2_ok : Bool
  /-- Whether, in the child, `chdir("./cgi-like")` succeeds. -/
  chdir_ok : Bool
  /-- The call `execvp(args[0], args)`: `none` when it returns (an error),
  otherwise what the program writes to its standard output and how it ends. -/
  exec : List Str → Option (Str × Status)
  /-- Whether `waitpid(pid, &status, 0)` succeeds. -/
  waitpid_ok : Bool
  /-- Whether `sigprocmask(SIG_SETMASK, &oldmask, NULL)` of line 202 succeeds. -/
  sigrestore_ok : Bool
  /-- Whether `unlink(temp_filename)` succeeds. -/
  unlink_ok : Bool
  /-- The bytes after the request line that the `read` calls made by `getline`
  brought into the buffer of the stream together with the line, for instance
  request headers that arrived with it. -/
  pending : Str

/-- What the handler does besides writing the response. -/
inductive Effect where
  /-- The parent calls `open(path, O_RDONLY)`. -/
  | open_ (path : Str)
  /-- The call `fork` returned the child `pid`. -/
  | spawn (pid : Nat)
  /-- The child calls `execvp(args[0], args)`. -/
  | execvp (args : List Str)
  /-- The parent calls `unlink(name)`. -/
  | unlink (name : Str)
deriving DecidableEq, Repr

/-- The outcome of one call of `handle_request` or of one of its parts: the
response (`none` when there is none), the effects in order, the files
afterwards, and whether the model stopped at a fault of the argument array.
For the handlers and for `handle_request_written` the response is what the
calls of `fprintf` and `fwrite` put into the stream `network`; for
`handle_request` it is what reaches the connection. -/
structure Result where
  response : Option Response
  trace : List Effect
  fs : Files
  fault : Option Fault

/-- Lines 157 and 224: `snprintf(temp_filename, 256, "temp_output_%d.txt", pid)`. -/
def temp_filename (pid : Nat) : Str :=
  snprintf 256 ("temp_output_".toList ++ fmt_d pid ++ ".txt".toList)

/-- What the child process leaves behind: the files, its termination status
and its effects. -/
structure ChildRun where
  fs : Files
  status : Status
  trace : List Effect

/-- Lines 152-182, the child process `pid`: the files it leaves, how it ends,
and its effects.  The sink is created empty; the executed program's output is
written to it. -/
def run_child (env : Env) (pid : Nat) (args : List Str) : ChildRun :=
  if env.child_open_ok then
    if env.dup2_ok then
      if env.chdir_ok then
        match env.exec args with
        | none => ⟨env.fs.put (temp_filename pid) [], .exited 1, [.execvp args]⟩
        | some (out, status) => ⟨env.fs.put (temp_filename pid) out, status, [.execvp args]⟩
      else ⟨env.fs.put (temp_filename pid) [], .exited 1, []⟩
    else ⟨env.fs.put (temp_filename pid) [], .exited 1, []⟩
  else ⟨env.fs, .exited 1, []⟩

/-- The call `open(path, O_RDONLY)` on the files `fs`: the bytes of the file
when it exists and can be opened. -/
def open_rdonly (env : Env) (fs : Files) (path : Str) : Option Str :=
  if env.open_ok path then fs path else none

/-- Lines 184-277, the parent after `fork` returned `pid`, once the child
`c` has run. -/
def handle_cgi_parent (env : Env) (method : Str) (pid : Nat) (c : ChildRun) : Result :=
  if env.waitpid_ok then
    if env.sigrestore_ok then
      if child_failed c.status then ⟨some internal_error, .spawn pid :: c.trace, c.fs, none⟩
      else
        match open_rdonly env c.fs (temp_filename pid) with
        | none =>
          ⟨some internal_error, .spawn pid :: c.trace ++ [.open_ (temp_filename pid)], c.fs, none⟩
        | some output =>
          if env.fstat_ok (temp_filename pid) then
            ⟨some (ok_response output.length
                (if method = "GET".toList then copy_file output else [])),
              .spawn pid :: c.trace ++ [.open_ (temp_filename pid), .unlink (temp_filename pid)],
              if env.unlink_ok then c.fs.remove (temp_filename pid) else c.fs, none⟩
          else
            ⟨some internal_error, .spawn pid :: c.trace ++ [.open_ (temp_filename pid)], c.fs, none⟩
    else ⟨none, .spawn pid :: c.trace, c.fs, none⟩
  else ⟨some internal_error, .spawn pid :: c.trace, c.fs, none⟩

/-- Lines 101-277: the execution handler. -/
def handle_cgi (env : Env) (method path : Str) (query : Option Str) : Result :=
  let program_name := snprintf 1024 (path.drop 10)
  match build_args program_name query with
  | .error f => ⟨none, [], env.fs, some f⟩
  | .ok a =>
    if env.sigblock_ok then
      match env.fork with
      | none => ⟨some internal_error, [], env.fs, none⟩
      | some pid => handle_cgi_parent env method pid (run_child env pid (argv a.args))
    else ⟨none, [], env.fs, none⟩

/-- Lines 279-334: the static file handler. -/
def handle_static (env : Env) (method path : Str) : Result :=
  let filepath :=
    if path.head? = some '/' then snprintf 1024 ('.' :: path) else snprintf 1024 path
  match open_rdonly env env.fs filepath with
  | none => ⟨some not_found, [.open_ filepath], env.fs, none⟩
  | some file =>
    if env.fstat_ok filepath then
      ⟨some (ok_response file.length (if method = "GET".toList then copy_file file else [])),
        [.open_ filepath], env.fs, none⟩
    else ⟨some internal_error, [.open_ filepath], env.fs, none⟩

/-- The path of a request-target: lines 75-85, the text before the first `?`. -/
def uri_path (request_uri : Str) : Str := request_uri.takeWhile (fun c => c != '?')

/-- The query of a request-target: lines 75-85, the text after the first `?`,
or `none` (NULL) when there is no `?`. -/
def uri_query (request_uri : Str) : Option Str :=
  if strchr request_uri '?' then some ((request_uri.dropWhile (fun c => c != '?')).drop 1)
  else none

/-- The test of line 101: `strncmp(path, "/cgi-like/", 10) == 0 &&
strlen(path) > 10`. -/
def is_cgi (path : Str) : Bool :=
  path.take 10 == "/cgi-like/".toList && decide (path.length > 10)

/-- Where the parsing part of `handle_request` (lines 33-101) sends a line:
it returns without a response, writes a literal response and returns, or
enters one of the two handlers with the method, the path and the query. -/
inductive Routed where
  | no_response
  | reply (r : Response)
  | execution (method path : Str) (query : Option Str)
  | static_file (method path : Str)
deriving DecidableEq, Repr

/-- Lines 33-101: the line is read (the empty line stands for `num <= 0`),
scanned, the method and the path checked, and a handler chosen. -/
def route (line : Str) : Routed :=
  if line.length ≤ 0 then .no_response
  else
    let sc := sscanf_line (cstr line)
    if sc.count ≠ 3 then .reply bad_request
    else if sc.method ≠ "GET".toList ∧ sc.method ≠ "HEAD".toList then .reply not_implemented
    else
      let path := uri_path sc.request_uri
      let query := uri_query sc.request_uri
      if strstr path "..".toList then .reply forbidden
      else if is_cgi path then .execution sc.method path query
      else .static_file sc.method path

/-- The function `handle_request` on the line that `getline` reads from the
connection, up to the stream: the response it writes into the stream `network`
with `fprintf` and `fwrite`, and what it does besides. -/
def handle_request_written (env : Env) (line : Str) : Result :=
  if env.fdopen_ok then
    match route line with
    | .no_response => ⟨none, [], env.fs, none⟩
    | .reply r => ⟨some r, [], env.fs, none⟩
    | .execution method path query => handle_cgi env method path query
    | .static_file method path => handle_static env method path
  else ⟨none, [], env.fs, none⟩

/-- The input left unread in the buffer of the stream when `getline` returns
the line: the pending bytes when the line ends at a newline, nothing when
`getline` stopped at the end of the input. -/
def unread (env : Env) (line : Str) : Str :=
  if line.getLast? = some '\n' then env.pending else []

/-- What `fflush` and `fclose` send of the output written to `network`, a
stream opened `r+` on a socket and written directly after it was read (lines
21, 33 and 44): with unread input in its buffer the C library first seeks back
over that input, the seek fails on a socket (ESPIPE), and the output is
dropped, every time; with no unread input all the output is sent. -/
def flush (env : Env) (line : Str) (written : Option Response) : Option Response :=
  if unread env line = [] then written else none

/-- The function `handle_request` on the line that `getline` reads from the
connection: the response that reaches the connection, the effects, the files
afterwards. -/
def handle_request (env : Env) (line : Str) : Result :=
  ⟨flush env line (handle_request_written env line).response,
    (handle_request_written env line).trace,
    (handle_request_written env line).fs,
    (handle_request_written env line).fault⟩

/-! ## Concrete environments -/

/-- A working directory without files and without programs: every system
call succeeds, `fork` returns the child 4242, `execvp` finds no program. -/
def env_bare : Env where
  fdopen_ok := true
  fs := fun _ => none
  open_ok := fun _ => true
  fstat_ok := fun _ => true
  sigblock_ok := true
  fork := some 4242
  child_open_ok := true
  dup2_ok := true
  chdir_ok := true
  exec := fun _ => none
  waitpid_ok := true
  sigrestore_ok := true
  unlink_ok := true
  pending := []

/-- The environment `env_bare` for a client that sends a header block
together with the request line: the line is read with `Host: x` and the blank
line behind it in the buffer. -/
def env_headers : Env :=
  { env_bare with pending := "Host: x\r\n\r\n".toList }

/-- A working directory whose only file is `index.html`, with the five bytes
`hello`; every system call succeeds. -/
def env_index : Env :=
  { env_bare with
    fs := fun p => if p = "./index.html".toList then some "hello".toList else none }

/-- The environment `env_index` for a client that sends a header block
together with the request line. -/
def env_index_headers : Env :=
  { env_index with pending := "Host: x\r\n\r\n".toList }

/-- A request path of 1024 characters: 510 nested directories `a` and the
file name `bcd`. -/
def deep_path : Str := '/' :: (List.replicate 510 "a/".toList).flatten ++ "bcd".toList

/-- A working directory whose only file is the one `deep_path` names, with
the five bytes `hello`; every system call succeeds. -/
def env_deep : Env :=
  { env_bare with
    fs := fun p => if p = '.' :: deep_path then some "hello".toList else none }

/-! ## Query arguments (the vocabulary of the specification) -/

/-- The non-empty `&`-separated pieces of a query string, verbatim and in
their original order. -/
def query_pieces (q : Str) : List Str := (q.splitOn '&').filter (fun s => !s.isEmpty)

/-- The query tokens of a request-target: the pieces of its query string, none
when the query is absent. -/
def uri_args (request_uri : Str) : List Str :=
  match uri_query request_uri with
  | none => []
  | some q => query_pieces q

/-- The strings `build_args` stores: the program name and the first 254
query tokens. -/
def stored_args (program_name : Str) (query : Option Str) : List Str :=
  program_name ::
    (match query with
      | none => []
      | some q => (query_pieces q).take 254)

/-- The state of the argument array once the strings `l` have been stored in
it: they fill the elements `0 .. l.length - 1`, the counter is their number,
the stores made so far went to the indices `0 .. l.length - 1` in order, and
the counter took the values `0 .. l.length` in order. -/
def ArgVec.holds (a : ArgVec) (l : List Str) : Prop :=
  a.args.length = 256 ∧ a.arg_count = l.length ∧
    (∃ rest, a.args = l.map Slot.ptr ++ rest) ∧
    a.stores = List.range l.length ∧ a.counts = List.range (l.length + 1)

/-- A working directory in which every program prints nothing and exits with
status 1, as `false` does.  Every system call succeeds. -/
def env_false : Env :=
  { env_bare with exec := fun _ => some ([], .exited 1) }

/-- A working directory in which every program prints `ok` and exits with
status 0.  Every system call succeeds. -/
def env_true : Env :=
  { env_bare with exec := fun _ => some ("ok".toList, .exited 0) }

/-- A program path of 1026 characters below `cgi-like`: 511 nested
directories `d` and the program `prog`. -/
def long_prog : Str := (List.replicate 511 "d/".toList).flatten ++ "prog".toList

/-- A query of one token of 2040 characters. -/
def long_query : Str := List.replicate 2040 'a'

/-- A query of 255 tokens `x` separated by `&`. -/
def many_args : Str := 'x' :: (List.replicate 254 "&x".toList).flatten

/-! ## Fields scanned from tokens -/

/-- What one `%Ns` conversion does to the list of tokens still unread: it
stores the first `n` characters of the first token and leaves the rest of
that token, when there is one, as the next token. -/
def next_field (n : Nat) : List Str → Option (Str × List Str)
  | [] => none
  | t :: rest => some (t.take n, if t.length ≤ n then rest else t.drop n :: rest)

/-- The three conversions of `%4s %2047s %15s`, on the tokens of the line. -/
def scan_tokens (ts : List Str) : Scanned :=
  match next_field 4 ts with
  | none => ⟨-1, [], [], []⟩
  | some (m, ts1) =>
    match next_field 2047 ts1 with
    | none => ⟨1, m, [], []⟩
    | some (u, ts2) =>
      match next_field 15 ts2 with
      | none => ⟨2, m, u, []⟩
      | some (v, _) => ⟨3, m, u, v⟩

/-! ## Lemmas: tokens and `sscanf` -/

theorem notspace_iff (c : Char) : notspace c = true ↔ isspace c = false := by
  simp [notspace]

theorem dropWhile_isspace_head (s : Str) (c : Char) (r : Str)
    (h : s.dropWhile isspace = c :: r) : notspace c = true := by
  induction s with
  | nil => simp at h
  | cons a t ih =>
    by_cases ha : isspace a = true
    · rw [List.dropWhile_cons_of_pos ha] at h
      exact ih h
    · rw [List.dropWhile_cons_of_neg ha] at h
      injection h with h1 h2
      subst h1
      simpa [notspace] using ha

theorem dropWhile_notspace_head (s : Str) (c : Char) (r : Str)
    (h : s.dropWhile notspace = c :: r) : isspace c = true := by
  induction s with
  | nil => simp at h
  | cons a t ih =>
    by_cases ha : notspace a = true
    · rw [List.dropWhile_cons_of_pos ha] at h
      exact ih h
    · rw [List.dropWhile_cons_of_neg ha] at h
      injection h with h1 h2
      subst h1
      simpa [notspace] using ha

theorem length_dropWhile_le (p : Char → Bool) (s : Str) :
    (s.dropWhile p).length ≤ s.length := by
  induction s with
  | nil => simp
  | cons a t ih =>
    by_cases ha : p a = true
    · rw [List.dropWhile_cons_of_pos ha]; simp; omega
    · rw [List.dropWhile_cons_of_neg ha]

theorem length_takeWhile_add_dropWhile (p : Char → Bool) (s : Str) :
    (s.takeWhile p).length + (s.dropWhile p).length = s.length := by
  have h := congrArg List.length (List.takeWhile_append_dropWhile p s)
  rw [List.length_append] at h
  exact h

theorem tokens_fuel_congr : ∀ (n m : Nat) (s : Str), s.length ≤ n → s.length ≤ m →
    tokens_fuel n s = tokens_fuel m s := by
  intro n
  induction n with
  | zero =>
    intro m s hn _
    have hs : s = [] := List.length_eq_zero.mp (by omega)
    subst hs
    cases m <;> simp [tokens_fuel]
  | succ n ih =>
    intro m s hn hm
    cases m with
    | zero =>
      have hs : s = [] := List.length_eq_zero.mp (by omega)
      subst hs
      simp [tokens_fuel]
    | succ m =>
      simp only [tokens_fuel]
      by_cases h1 : s.dropWhile isspace = []
      · simp [h1]
      · simp only [h1, if_false]
        congr 1
        obtain ⟨c, r, hcr⟩ := List.exists_cons_of_ne_nil h1
        have hc := dropWhile_isspace_head s c r hcr
        have hlen := length_dropWhile_le isspace s
        have h2 : ((s.dropWhile isspace).dropWhile notspace).length < (s.dropWhile isspace).length := by
          rw [hcr, List.dropWhile_cons_of_pos hc]
          have := length_dropWhile_le notspace r
          simp; omega
        apply ih <;> omega

/-- The unfolding of `tokens`: skip white space, take a token, go on. -/
theorem tokens_unfold (s : Str) :
    tokens s = if s.dropWhile isspace = [] then []
      else (s.dropWhile isspace).takeWhile notspace ::
        tokens ((s.dropWhile isspace).dropWhile notspace) := by
  unfold tokens
  cases s with
  | nil => simp [tokens_fuel]
  | cons a t =>
    simp only [List.length_cons, tokens_fuel]
    by_cases h1 : (a :: t).dropWhile isspace = []
    · simp [h1]
    · simp only [h1, if_false]
      congr 1
      obtain ⟨c, r, hcr⟩ := List.exists_cons_of_ne_nil h1
      have hc := dropWhile_isspace_head (a :: t) c r hcr
      have hlen := length_dropWhile_le isspace (a :: t)
      have h2 : (((a :: t).dropWhile isspace).dropWhile notspace).length
          < ((a :: t).dropWhile isspace).length := by
        rw [hcr, List.dropWhile_cons_of_pos hc]
        have := length_dropWhile_le notspace r
        simp; omega
      simp only [List.length_cons] at hlen
      apply tokens_fuel_congr <;> omega

theorem takeWhile_append_all (p : Char → Bool) (a b : Str) (h : ∀ x ∈ a, p x = true) :
    (a ++ b).takeWhile p = a ++ b.takeWhile p := by
  induction a with
  | nil => simp
  | cons x t ih =>
    have hx : p x = true := h x (by simp)
    rw [List.cons_append, List.takeWhile_cons_of_pos hx, ih (fun y hy => h y (by simp [hy]))]
    rfl

theorem dropWhile_append_all (p : Char → Bool) (a b : Str) (h : ∀ x ∈ a, p x = true) :
    (a ++ b).dropWhile p = b.dropWhile p := by
  induction a with
  | nil => simp
  | cons x t ih =>
    have hx : p x = true := h x (by simp)
    rw [List.cons_append, List.dropWhile_cons_of_pos hx, ih (fun y hy => h y (by simp [hy]))]

theorem mem_takeWhile_sat (p : Char → Bool) (s : Str) : ∀ x ∈ s.takeWhile p, p x = true := by
  induction s with
  | nil => simp
  | cons a t ih =>
    by_cases ha : p a = true
    · rw [List.takeWhile_cons_of_pos ha]
      intro x hx
      rcases List.mem_cons.mp hx with h | h
      · rw [h]; exact ha
      · exact ih x h
    · rw [List.takeWhile_cons_of_neg ha]
      simp

theorem takeWhile_dropWhile_nil (p : Char → Bool) (s : Str) :
    (s.dropWhile p).takeWhile p = [] := by
  induction s with
  | nil => simp
  | cons a t ih =>
    by_cases ha : p a = true
    · rw [List.dropWhile_cons_of_pos ha]; exact ih
    · rw [List.dropWhile_cons_of_neg ha, List.takeWhile_cons_of_neg ha]

theorem dropWhile_dropWhile_same (p : Char → Bool) (s : Str) :
    (s.dropWhile p).dropWhile p = s.dropWhile p := by
  induction s with
  | nil => simp
  | cons a t ih =>
    by_cases ha : p a = true
    · rw [List.dropWhile_cons_of_pos ha]; exact ih
    · rw [List.dropWhile_cons_of_neg ha, List.dropWhile_cons_of_neg ha]

theorem tokens_dropWhile_isspace (s : Str) : tokens (s.dropWhile isspace) = tokens s := by
  rw [tokens_unfold (s.dropWhile isspace), tokens_unfold s, dropWhile_dropWhile_same]

/-- A non-empty run of non-white-space characters in front of a text that
does not go on with one is the first token. -/
theorem tokens_append_run (a r : Str) (ha : a ≠ []) (hall : ∀ x ∈ a, notspace x = true)
    (hr : r.takeWhile notspace = []) : tokens (a ++ r) = a :: tokens r := by
  obtain ⟨c, t, hct⟩ := List.exists_cons_of_ne_nil ha
  have hc : notspace c = true := hall c (by simp [hct])
  have hc2 : ¬ isspace c = true := by simpa [notspace] using hc
  have h1 : (a ++ r).dropWhile isspace = a ++ r := by
    rw [hct, List.cons_append, List.dropWhile_cons_of_neg hc2]
  have h2 : a ++ r ≠ [] := by simp [ha]
  have h3 : r.dropWhile notspace = r := by
    have := List.takeWhile_append_dropWhile notspace r
    rw [hr] at this
    simpa using this
  rw [tokens_unfold, h1, if_neg h2, takeWhile_append_all _ _ _ hall, hr,
    dropWhile_append_all _ _ _ hall, h3, List.append_nil]

/-- A `%Ns` conversion on a text acts on its tokens as `next_field` does. -/
theorem scan_s_tokens (n : Nat) (hn : 0 < n) (s : Str) :
    (scan_s n s).map (fun x => (x.1, tokens x.2)) = next_field n (tokens s) := by
  rw [tokens_unfold s]
  unfold scan_s
  by_cases h1 : s.dropWhile isspace = []
  · simp [h1, next_field]
  · obtain ⟨c, r, hcr⟩ := List.exists_cons_of_ne_nil h1
    have hc := dropWhile_isspace_head s c r hcr
    set s1 := s.dropWhile isspace with hs1
    set t := s1.takeWhile notspace with ht
    set r1 := s1.dropWhile notspace with hr1
    have hsplit : t ++ r1 = s1 := List.takeWhile_append_dropWhile notspace s1
    have htne : t ≠ [] := by
      rw [ht, hcr, List.takeWhile_cons_of_pos hc]; simp
    have htall : ∀ x ∈ t, notspace x = true := mem_takeWhile_sat notspace s1
    have hr1t : r1.takeWhile notspace = [] := takeWhile_dropWhile_nil notspace s1
    have hfield : t.take n ≠ [] := by
      obtain ⟨d, u, hdu⟩ := List.exists_cons_of_ne_nil htne
      obtain ⟨k, hk⟩ : ∃ k, n = k + 1 := ⟨n - 1, by omega⟩
      rw [hdu, hk]; simp
    simp only [if_neg h1, if_neg hfield, Option.map_some', next_field]
    congr 2
    by_cases hle : t.length ≤ n
    · rw [if_pos hle, List.take_of_length_le hle]
      conv_lhs => rw [← hsplit]
      rw [List.drop_left]
    · rw [if_neg hle]
      have hlen : (t.take n).length = n := by rw [List.length_take]; omega
      rw [hlen]
      conv_lhs => rw [← hsplit]
      have hd : (t ++ r1).drop n = t.drop n ++ r1 := by
        rw [List.drop_append_of_le_length (by omega)]
      rw [hd]
      apply tokens_append_run _ _ _ _ hr1t
      · intro h0
        have := congrArg List.length h0
        simp at this; omega
      · intro x hx
        exact htall x (List.mem_of_mem_drop hx)

/-- The call of `sscanf` on a line is determined by the tokens of the line. -/
theorem sscanf_line_eq (s : Str) : sscanf_line s = scan_tokens (tokens s) := by
  unfold sscanf_line scan_tokens
  have h1 := scan_s_tokens 4 (by decide) s
  cases hs1 : scan_s 4 s with
  | none => rw [hs1] at h1; simp at h1; rw [← h1]
  | some x1 =>
    obtain ⟨m, r1⟩ := x1
    rw [hs1] at h1; simp at h1; rw [← h1]
    simp only
    have h2 := scan_s_tokens 2047 (by decide) (r1.dropWhile isspace)
    rw [tokens_dropWhile_isspace] at h2
    cases hs2 : scan_s 2047 (r1.dropWhile isspace) with
    | none => rw [hs2] at h2; simp at h2; rw [← h2]
    | some x2 =>
      obtain ⟨u, r2⟩ := x2
      rw [hs2] at h2; simp at h2; rw [← h2]
      simp only
      have h3 := scan_s_tokens 15 (by decide) (r2.dropWhile isspace)
      rw [tokens_dropWhile_isspace] at h3
      cases hs3 : scan_s 15 (r2.dropWhile isspace) with
      | none => rw [hs3] at h3; simp at h3; rw [← h3]
      | some x3 =>
        obtain ⟨v, r3⟩ := x3
        rw [hs3] at h3; simp at h3; rw [← h3]

/-! ## Lemmas: the handler -/

theorem strstr_iff_sub (hay needle : Str) : strstr hay needle = true ↔ needle <:+: hay := by
  induction hay with
  | nil => simp [strstr, List.isEmpty_iff]
  | cons c t ih =>
    rw [strstr, List.infix_cons_iff, Bool.or_eq_true, ih, List.isPrefixOf_iff_prefix]

theorem tokens_cstr_ne_nil (line : Str) (h : tokens (cstr line) ≠ []) : 0 < line.length := by
  cases line with
  | nil => exact absurd (by decide) h
  | cons a t => simp

/-- A line whose first token is at most 4 characters long and whose second is
at most 2047 characters long is scanned into its first three tokens. -/
theorem scan_tokens_three (m t v : Str) (rest : List Str) (hm : m.length ≤ 4)
    (ht : t.length ≤ 2047) :
    scan_tokens (m :: t :: v :: rest) = ⟨3, m, t, v.take 15⟩ := by
  simp [scan_tokens, next_field, hm, ht, List.take_of_length_le]

theorem next_field_cons (n : Nat) (t : Str) (rest : List Str) :
    ∃ ts, next_field n (t :: rest) = some (t.take n, ts) ∧ (ts = rest ∨ ∃ x, ts = x :: rest) := by
  unfold next_field
  by_cases h : t.length ≤ n
  · exact ⟨rest, by simp [h], Or.inl rfl⟩
  · exact ⟨t.drop n :: rest, by simp [h], Or.inr ⟨_, rfl⟩⟩

/-- Three tokens or more always give three fields. -/
theorem scan_tokens_count_three (t1 t2 t3 : Str) (rest : List Str) :
    (scan_tokens (t1 :: t2 :: t3 :: rest)).count = 3 ∧
      (scan_tokens (t1 :: t2 :: t3 :: rest)).method = t1.take 4 := by
  unfold scan_tokens
  obtain ⟨ts1, h1, h1c⟩ := next_field_cons 4 t1 (t2 :: t3 :: rest)
  rw [h1]
  simp only
  have h2e : ∃ u ts2 x rest2, next_field 2047 ts1 = some (u, ts2) ∧ ts2 = x :: rest2 := by
    rcases h1c with h | ⟨x, h⟩
    · obtain ⟨ts2, h2, h2c⟩ := next_field_cons 2047 t2 (t3 :: rest)
      rw [h]
      rcases h2c with h' | ⟨y, h'⟩
      · exact ⟨_, ts2, t3, rest, h2, h'⟩
      · exact ⟨_, ts2, y, _, h2, h'⟩
    · obtain ⟨ts2, h2, h2c⟩ := next_field_cons 2047 x (t2 :: t3 :: rest)
      rw [h]
      rcases h2c with h' | ⟨y, h'⟩
      · exact ⟨_, ts2, t2, _, h2, h'⟩
      · exact ⟨_, ts2, y, _, h2, h'⟩
  obtain ⟨u, ts2, x, rest2, h2, h2c⟩ := h2e
  rw [h2]
  simp only
  obtain ⟨ts3, h3, _⟩ := next_field_cons 15 x rest2
  rw [h2c, h3]
  simp

/-- The responses of the parent of the execution handler. -/
theorem handle_cgi_parent_response (env : Env) (method : Str) (pid : Nat) (c : ChildRun) :
    (handle_cgi_parent env method pid c).response = none ∨
      (handle_cgi_parent env method pid c).response = some internal_error ∨
      ∃ n b, (handle_cgi_parent env method pid c).response = some (ok_response n b) := by
  unfold handle_cgi_parent
  cases h1 : env.waitpid_ok <;> cases h2 : env.sigrestore_ok <;>
    cases h3 : child_failed c.status <;>
    cases h4 : open_rdonly env c.fs (temp_filename pid) <;>
    cases h5 : env.fstat_ok (temp_filename pid) <;> simp

/-- The responses of the execution handler. -/
theorem handle_cgi_response (env : Env) (method path : Str) (query : Option Str) :
    (handle_cgi env method path query).response = none ∨
      (handle_cgi env method path query).response = some internal_error ∨
      ∃ n b, (handle_cgi env method path query).response = some (ok_response n b) := by
  unfold handle_cgi
  cases hb : build_args (snprintf 1024 (path.drop 10)) query with
  | error f => simp only [hb]; simp
  | ok a =>
    cases hs : env.sigblock_ok with
    | false => simp only [hb, hs]; simp
    | true =>
      cases hf : env.fork with
      | none => simp only [hb, hs, hf, if_true]; simp
      | some pid =>
        simp only [hb, hs, hf, if_true]
        exact handle_cgi_parent_response env method pid _

/-- The responses of the static file handler. -/
theorem handle_static_response (env : Env) (method path : Str) :
    (handle_static env method path).response = some not_found ∨
      (handle_static env method path).response = some internal_error ∨
      ∃ n b, (handle_static env method path).response = some (ok_response n b) := by
  unfold handle_static
  generalize (if path.head? = some '/' then snprintf 1024 ('.' :: path) else snprintf 1024 path)
    = filepath
  cases h1 : open_rdonly env env.fs filepath <;> cases h2 : env.fstat_ok filepath <;>
    simp only [h1, h2] <;> simp

/-- The routing of a line that `sscanf` splits into three fields. -/
theorem route_scanned (line : Str) (hcount : (sscanf_line (cstr line)).count = 3) :
    route line =
      if (sscanf_line (cstr line)).method ≠ "GET".toList ∧
          (sscanf_line (cstr line)).method ≠ "HEAD".toList then .reply not_implemented
      else if strstr (uri_path (sscanf_line (cstr line)).request_uri) "..".toList then
        .reply forbidden
      else if is_cgi (uri_path (sscanf_line (cstr line)).request_uri) then
        .execution (sscanf_line (cstr line)).method
          (uri_path (sscanf_line (cstr line)).request_uri)
          (uri_query (sscanf_line (cstr line)).request_uri)
      else .static_file (sscanf_line (cstr line)).method
        (uri_path (sscanf_line (cstr line)).request_uri) := by
  have hne : ¬ line.length ≤ 0 := by
    cases line with
    | nil => exact absurd hcount (by decide)
    | cons a t => simp
  unfold route
  simp only [hne, if_false, hcount, ne_eq, not_true_eq_false]

/-- The routing of a line that `sscanf` does not split into three fields. -/
theorem route_unscanned (line : Str) (hpos : 0 < line.length)
    (hcount : (sscanf_line (cstr line)).count ≠ 3) : route line = .reply bad_request := by
  have hne : ¬ line.length ≤ 0 := by omega
  unfold route
  simp only [hne, if_false, hcount, ne_eq, not_false_eq_true, if_true]

/-- A line scanned into three fields is never answered `400 Bad Request`. -/
theorem handle_request_not_bad_request (env : Env) (line : Str)
    (hcount : (sscanf_line (cstr line)).count = 3) :
    (handle_request_written env line).response ≠ some bad_request := by
  have hroute := route_scanned line hcount
  unfold handle_request_written
  cases env.fdopen_ok with
  | false => simp
  | true =>
    simp only [if_true]
    cases hr : route line with
    | no_response => simp
    | reply r =>
      rw [hr] at hroute
      have hr2 : r = not_implemented ∨ r = forbidden := by
        split_ifs at hroute
        · left; injection hroute
        · right; injection hroute
      rcases hr2 with h | h <;> subst h <;> simp <;> decide
    | execution m p q =>
      rcases handle_cgi_response env m p q with h | h | ⟨n, b, h⟩ <;>
        simp only [h] <;> simp [ok_response, bad_request, internal_error]
    | static_file m p =>
      rcases handle_static_response env m p with h | h | ⟨n, b, h⟩ <;>
        simp only [h] <;> simp [ok_response, bad_request, internal_error, not_found]

/-- The routing of a three-token line with a method of at most 4 characters
and a request-target of at most 2047. -/
theorem route_three_tokens (line m t v : Str) (rest : List Str)
    (htok : tokens (cstr line) = m :: t :: v :: rest)
    (hm : m.length ≤ 4) (ht : t.length ≤ 2047) :
    route line =
      if m ≠ "GET".toList ∧ m ≠ "HEAD".toList then .reply not_implemented
      else if strstr (uri_path t) "..".toList then .reply forbidden
      else if is_cgi (uri_path t) then .execution m (uri_path t) (uri_query t)
      else .static_file m (uri_path t) := by
  have hsc : sscanf_line (cstr line) = ⟨3, m, t, v.take 15⟩ := by
    rw [sscanf_line_eq, htok, scan_tokens_three m t v rest hm ht]
  rw [route_scanned line (by rw [hsc]), hsc]

/-- A path handed to a handler has passed the `strstr(path, "..")` test. -/
theorem route_handler_path (line method path : Str) (query : Option Str)
    (hr : route line = .execution method path query ∨ route line = .static_file method path) :
    ¬ strstr path "..".toList = true := by
  by_cases hlen : line.length ≤ 0
  · have h0 : route line = .no_response := by unfold route; simp only [hlen, if_true]
    rw [h0] at hr
    rcases hr with hr | hr <;> injection hr
  · by_cases hcount : (sscanf_line (cstr line)).count = 3
    · rw [route_scanned line hcount] at hr
      intro hs
      split_ifs at hr with h1 h2 h3
      · rcases hr with hr | hr <;> exact hr
      · rcases hr with hr | hr <;> exact hr
      · simp only [Routed.execution.injEq, or_false] at hr
        rw [hr.2.1] at h2
        exact h2 hs
      · simp only [Routed.static_file.injEq, false_or] at hr
        rw [hr.2] at h2
        exact h2 hs
    · rw [route_unscanned line (by omega) hcount] at hr
      rcases hr with hr | hr <;> injection hr

/-- The copy loop writes the whole file. -/
theorem copy_loop_eq : ∀ (fuel : Nat) (file : Str), file.length < fuel →
    copy_loop fuel file = file := by
  intro fuel
  induction fuel with
  | zero => intro file h; omega
  | succ n ih =>
    intro file h
    unfold copy_loop
    simp only
    by_cases hb : (file.take 1024).length > 0
    · rw [if_pos hb]
      have hpos : 0 < file.length := by
        rw [List.length_take] at hb; omega
      have hd : (file.drop 1024).length < n := by
        rw [List.length_drop]; omega
      rw [ih _ hd, List.take_append_drop]
    · rw [if_neg hb]
      have h0 : file.length = 0 := by
        rw [List.length_take] at hb; omega
      exact (List.length_eq_zero.mp h0).symm

theorem copy_file_eq (file : Str) : copy_file file = file :=
  copy_loop_eq _ _ (Nat.lt_succ_self _)

/-! ## Lemmas: `strtok` and the argument array -/

theorem query_pieces_eq (q : Str) :
    query_pieces q = (q.splitOnP (fun c => c == '&')).filter (fun s => !s.isEmpty) := rfl

theorem dropWhile_amp_pos (x : Char) (xs : Str) (h : (x == '&') = true) :
    (x :: xs).dropWhile (fun c => c == '&') = xs.dropWhile (fun c => c == '&') := by
  simp only [List.dropWhile_cons, h, if_true]

theorem dropWhile_amp_neg (x : Char) (xs : Str) (h : ¬ (x == '&') = true) :
    (x :: xs).dropWhile (fun c => c == '&') = x :: xs := by
  simp only [List.dropWhile_cons, h, if_false]
  rfl

theorem dropWhile_namp_pos (x : Char) (xs : Str) (h : (x != '&') = true) :
    (x :: xs).dropWhile (fun c => c != '&') = xs.dropWhile (fun c => c != '&') := by
  simp only [List.dropWhile_cons, h, if_true]

theorem dropWhile_namp_neg (x : Char) (xs : Str) (h : ¬ (x != '&') = true) :
    (x :: xs).dropWhile (fun c => c != '&') = x :: xs := by
  simp only [List.dropWhile_cons, h, if_false]
  rfl

theorem takeWhile_namp_pos (x : Char) (xs : Str) (h : (x != '&') = true) :
    (x :: xs).takeWhile (fun c => c != '&') = x :: xs.takeWhile (fun c => c != '&') := by
  simp only [List.takeWhile_cons, h, if_true]

theorem takeWhile_namp_neg (x : Char) (xs : Str) (h : ¬ (x != '&') = true) :
    (x :: xs).takeWhile (fun c => c != '&') = [] := by
  simp only [List.takeWhile_cons, h, if_false]
  rfl

/-- The first piece of a split ends at the first separator. -/
theorem splitOnP_amp (s : Str) :
    s.splitOnP (fun c => c == '&') =
      s.takeWhile (fun c => c != '&') ::
        (match s.dropWhile (fun c => c != '&') with
          | [] => []
          | _ :: rest => rest.splitOnP (fun c => c == '&')) := by
  induction s with
  | nil => simp
  | cons x xs ih =>
    rw [List.splitOnP_cons]
    by_cases hx : (x == '&') = true
    · have hx2 : ¬ ((x != '&') = true) := by simp [bne, hx]
      rw [if_pos hx, takeWhile_namp_neg x xs hx2, dropWhile_namp_neg x xs hx2]
    · have hx2 : (x != '&') = true := by simpa [bne] using hx
      rw [if_neg hx, takeWhile_namp_pos x xs hx2, dropWhile_namp_pos x xs hx2, ih]
      rfl

theorem query_pieces_dropWhile (s : Str) :
    query_pieces (s.dropWhile (fun c => c == '&')) = query_pieces s := by
  induction s with
  | nil => rfl
  | cons x xs ih =>
    by_cases hx : (x == '&') = true
    · rw [dropWhile_amp_pos x xs hx, ih, query_pieces_eq (x :: xs), List.splitOnP_cons,
        if_pos hx]
      rfl
    · rw [dropWhile_amp_neg x xs hx]

/-- What `strtok` returns, in terms of the pieces of the text. -/
theorem strtok_spec (s : Str) :
    (strtok s = none ∧ query_pieces s = []) ∨
      ∃ tok rest, strtok s = some (tok, rest) ∧ query_pieces s = tok :: query_pieces rest ∧
        rest.length < s.length := by
  unfold strtok
  by_cases h1 : s.dropWhile (fun c => c == '&') = []
  · left
    refine ⟨by simp [h1], ?_⟩
    rw [← query_pieces_dropWhile, h1]
    rfl
  · right
    obtain ⟨c, r, hcr⟩ := List.exists_cons_of_ne_nil h1
    have hc : (c != '&') = true := by
      have hh : ∀ (l : Str) (c : Char) (r : Str),
          l.dropWhile (fun c => c == '&') = c :: r → (c != '&') = true := by
        intro l
        induction l with
        | nil => intro c r h; simp at h
        | cons a t ih =>
          intro c r h
          by_cases ha : (a == '&') = true
          · rw [dropWhile_amp_pos a t ha] at h
            exact ih c r h
          · rw [dropWhile_amp_neg a t ha] at h
            injection h with e1 e2
            subst e1
            simpa [bne] using ha
      exact hh s c r hcr
    refine ⟨(s.dropWhile (fun c => c == '&')).takeWhile (fun c => c != '&'),
      ((s.dropWhile (fun c => c == '&')).dropWhile (fun c => c != '&')).drop 1,
      by simp only [h1, if_false], ?_, ?_⟩
    · rw [← query_pieces_dropWhile s, query_pieces_eq, splitOnP_amp, hcr,
        takeWhile_namp_pos c r hc, dropWhile_namp_pos c r hc]
      rw [List.filter_cons_of_pos (by simp)]
      congr 1
      cases hd : r.dropWhile (fun c => c != '&') with
      | nil => rfl
      | cons d rest => rfl
    · have hl1 := length_dropWhile_le (fun c => c == '&') s
      rw [hcr] at hl1
      rw [hcr, dropWhile_namp_pos c r hc]
      have hl2 := length_dropWhile_le (fun c => c != '&') r
      simp only [List.length_drop, List.length_cons] at *
      omega

theorem set_append_cons (pre : List Slot) (g : Slot) (rest : List Slot) (v : Slot) :
    (pre ++ g :: rest).set pre.length v = pre ++ v :: rest := by
  induction pre with
  | nil => rfl
  | cons x t ih => simp [List.set, ih]

/-- The statement `args[arg_count++] = s` on an array that is not full. -/
theorem args_push_holds (a : ArgVec) (l : List Str) (s : Str) (h : a.holds l)
    (hl : l.length < 256) :
    ∃ a1, args_push a (.ptr s) = .ok a1 ∧ a1.holds (l ++ [s]) := by
  obtain ⟨hlen, hcount, ⟨rest, hargs⟩, hst, hct⟩ := h
  have hrest : rest ≠ [] := by
    intro h0
    rw [h0, List.append_nil] at hargs
    rw [hargs, List.length_map] at hlen
    omega
  obtain ⟨g, rest1, hg⟩ := List.exists_cons_of_ne_nil hrest
  have hset : a.args.set l.length (.ptr s) = (l ++ [s]).map Slot.ptr ++ rest1 := by
    rw [hargs, hg]
    have := set_append_cons (l.map Slot.ptr) g rest1 (.ptr s)
    rw [List.length_map] at this
    rw [this]
    simp
  unfold args_push args_store
  rw [hcount]
  simp only [hlen, hl, if_true]
  refine ⟨_, rfl, ?_⟩
  refine ⟨by simp [hlen], by simp, ⟨rest1, hset⟩, ?_, ?_⟩
  · simp [hst, List.range_succ]
  · simp only [hct, List.length_append, List.length_singleton]
    rw [List.range_succ (l.length + 1)]

/-- The loop of lines 116-119 stores the pieces of the text in order, as many
as fit below index 255, and ends. -/
theorem args_loop_holds : ∀ (fuel : Nat) (s : Str) (a : ArgVec) (l : List Str),
    s.length ≤ fuel → a.holds l → l.length ≤ 255 →
    ∃ a1, args_loop fuel (strtok s) a = .ok a1 ∧
      a1.holds (l ++ (query_pieces s).take (255 - l.length)) := by
  intro fuel
  induction fuel with
  | zero =>
    intro s a l hs h _
    have hs0 : s = [] := List.length_eq_zero.mp (by omega)
    subst hs0
    exact ⟨a, rfl, by simpa [query_pieces] using h⟩
  | succ n ih =>
    intro s a l hs h hl
    rcases strtok_spec s with ⟨hnone, hp⟩ | ⟨tok, rest, hsome, hp, hlt⟩
    · rw [hnone, hp]
      exact ⟨a, rfl, by simpa using h⟩
    · rw [hsome, hp]
      unfold args_loop
      by_cases hc : a.arg_count < 255
      · rw [if_pos hc]
        have hl2 : l.length < 255 := by rw [← h.2.1]; exact hc
        obtain ⟨a1, hpush, hh1⟩ := args_push_holds a l tok h (by omega)
        rw [hpush]
        simp only
        obtain ⟨a2, hloop, hh2⟩ := ih rest a1 (l ++ [tok]) (by omega) hh1
          (by simp only [List.length_append, List.length_singleton]; omega)
        refine ⟨a2, hloop, ?_⟩
        have e : 255 - l.length = (255 - (l ++ [tok]).length) + 1 := by
          simp only [List.length_append, List.length_singleton]; omega
        rw [e, List.take_succ_cons]
        simpa using hh2
      · rw [if_neg hc]
        have hl2 : l.length = 255 := by
          have := h.2.1
          omega
        refine ⟨a, rfl, ?_⟩
        rw [hl2]
        simpa using h

theorem argv_map_ptr (l : List Str) (rest : List Slot) :
    argv (l.map Slot.ptr ++ .null :: rest) = l := by
  induction l with
  | nil => rfl
  | cons x t ih => simp [argv, ih]

/-- Lines 108-122 always succeed: the result holds the program name and the
first 254 query tokens, then NULL. -/
theorem build_args_spec (program_name : Str) (query : Option Str) :
    ∃ a rest, build_args program_name query = .ok a ∧
      a.args = (stored_args program_name query).map Slot.ptr ++ .null :: rest ∧
      a.args.length = 256 ∧
      a.arg_count = (stored_args program_name query).length ∧
      a.arg_count ≤ 255 ∧
      a.stores = List.range (a.arg_count + 1) ∧
      a.counts = List.range (a.arg_count + 1) := by
  have h0 : ArgVec.holds ⟨List.replicate 256 .garbage, 0, [], [0]⟩ [] :=
    ⟨List.length_replicate _ _, rfl, ⟨_, rfl⟩, rfl, rfl⟩
  obtain ⟨a1, hpush, hh1⟩ := args_push_holds _ [] program_name h0 (by decide)
  have hfill : ∃ a2 : ArgVec, (match query with
      | none => (.ok a1 : Except Fault ArgVec)
      | some q => args_loop q.length (strtok q) a1) = .ok a2 ∧
      a2.holds (stored_args program_name query) := by
    cases query with
    | none => exact ⟨a1, rfl, hh1⟩
    | some q =>
      obtain ⟨a2, hloop, hh2⟩ := args_loop_holds q.length q a1 [program_name] (le_refl _) hh1
        (by simp only [List.length_singleton]; omega)
      exact ⟨a2, hloop, by simpa [stored_args] using hh2⟩
  obtain ⟨a2, hfill2, hh2⟩ := hfill
  have hlen : (stored_args program_name query).length ≤ 255 := by
    unfold stored_args
    cases query with
    | none => simp
    | some q => simp only [List.length_cons, List.length_take]; omega
  obtain ⟨hl, hc, ⟨rest, hargs⟩, hst, hct⟩ := hh2
  have hrest : rest ≠ [] := by
    intro h0
    rw [h0, List.append_nil] at hargs
    rw [hargs, List.length_map] at hl
    omega
  obtain ⟨g, rest1, hg⟩ := List.exists_cons_of_ne_nil hrest
  have hset : a2.args.set a2.arg_count .null
      = (stored_args program_name query).map Slot.ptr ++ .null :: rest1 := by
    rw [hargs, hg, hc]
    have := set_append_cons ((stored_args program_name query).map Slot.ptr) g rest1 .null
    rw [List.length_map] at this
    exact this
  refine ⟨{ a2 with args := a2.args.set a2.arg_count .null,
                    stores := a2.stores ++ [a2.arg_count] }, rest1, ?_, hset, ?_, hc, ?_, ?_, ?_⟩
  · unfold build_args
    simp only [hpush, hfill2]
    unfold args_store
    rw [if_pos (by rw [hl, hc]; omega)]
  · simp [hl]
  · simp only; omega
  · simp only [hst, hc, List.range_succ]
  · simp only [hct, hc]

/-! ## Lemmas: the execution handler -/

/-- The execution handler, with the argument vector it builds made explicit. -/
theorem handle_cgi_eq (env : Env) (method path : Str) (query : Option Str) :
    handle_cgi env method path query =
      if env.sigblock_ok then
        match env.fork with
        | none => ⟨some internal_error, [], env.fs, none⟩
        | some pid => handle_cgi_parent env method pid
            (run_child env pid (stored_args (snprintf 1024 (path.drop 10)) query))
      else ⟨none, [], env.fs, none⟩ := by
  obtain ⟨a, rest, hb, hargs, _⟩ := build_args_spec (snprintf 1024 (path.drop 10)) query
  have hv : argv a.args = stored_args (snprintf 1024 (path.drop 10)) query := by
    rw [hargs, argv_map_ptr]
  unfold handle_cgi
  simp only [hb, hv]

theorem run_child_execvp (env : Env) (pid : Nat) (args x : List Str) :
    Effect.execvp x ∈ (run_child env pid args).trace ↔
      (x = args ∧ env.child_open_ok = true ∧ env.dup2_ok = true ∧ env.chdir_ok = true) := by
  unfold run_child
  cases h1 : env.child_open_ok <;> cases h2 : env.dup2_ok <;> cases h3 : env.chdir_ok <;>
    cases h4 : env.exec args <;> simp

theorem handle_cgi_parent_execvp (env : Env) (method : Str) (pid : Nat) (c : ChildRun)
    (x : List Str) :
    Effect.execvp x ∈ (handle_cgi_parent env method pid c).trace ↔ Effect.execvp x ∈ c.trace := by
  unfold handle_cgi_parent
  cases h1 : env.waitpid_ok <;> cases h2 : env.sigrestore_ok <;>
    cases h3 : child_failed c.status <;>
    cases h4 : open_rdonly env c.fs (temp_filename pid) <;>
    cases h5 : env.fstat_ok (temp_filename pid) <;> simp

theorem handle_cgi_parent_fault (env : Env) (method : Str) (pid : Nat) (c : ChildRun) :
    (handle_cgi_parent env method pid c).fault = none := by
  unfold handle_cgi_parent
  cases h1 : env.waitpid_ok <;> cases h2 : env.sigrestore_ok <;>
    cases h3 : child_failed c.status <;>
    cases h4 : open_rdonly env c.fs (temp_filename pid) <;>
    cases h5 : env.fstat_ok (temp_filename pid) <;> simp

/-- The argument vector the execution handler hands to `execvp`, and when. -/
theorem handle_cgi_execvp (env : Env) (method path : Str) (query : Option Str)
    (x : List Str) :
    (Effect.execvp x ∈ (handle_cgi env method path query).trace ↔
      (x = stored_args (snprintf 1024 (path.drop 10)) query ∧ env.sigblock_ok = true ∧
        env.fork.isSome = true ∧ env.child_open_ok = true ∧ env.dup2_ok = true ∧
        env.chdir_ok = true)) ∧
      (handle_cgi env method path query).fault = none := by
  rw [handle_cgi_eq]
  cases hs : env.sigblock_ok with
  | false => simp
  | true =>
    cases hf : env.fork with
    | none => simp
    | some pid =>
      simp only [if_true, handle_cgi_parent_execvp, run_child_execvp, handle_cgi_parent_fault]
      simp

/-- The execution handler when every system call succeeds and the program
exits with status 0. -/
theorem handle_cgi_ok (env : Env) (method path : Str) (query : Option Str) (pid : Nat)
    (out : Str) (hs : env.sigblock_ok = true) (hf : env.fork = some pid)
    (ho : env.child_open_ok = true) (hd : env.dup2_ok = true) (hc : env.chdir_ok = true)
    (he : env.exec (stored_args (snprintf 1024 (path.drop 10)) query) = some (out, .exited 0))
    (hw : env.waitpid_ok = true) (hr : env.sigrestore_ok = true)
    (hopen : env.open_ok (temp_filename pid) = true)
    (hstat : env.fstat_ok (temp_filename pid) = true) :
    (handle_cgi env method path query).response =
      some (ok_response out.length (if method = "GET".toList then out else [])) := by
  rw [handle_cgi_eq]
  simp only [hs, hf, if_true]
  unfold handle_cgi_parent run_child
  simp only [ho, hd, hc, he, hw, hr, if_true, child_failed, open_rdonly, hopen, hstat,
    Files.put, copy_file_eq]
  simp

theorem stored_args_uri (name t : Str) :
    stored_args name (uri_query t) = name :: (uri_args t).take 254 := by
  unfold stored_args uri_args
  cases uri_query t <;> rfl

/-- The routing of a `GET` or `HEAD` line whose path is free of `..`. -/
theorem route_get_head (line m t v : Str) (htok : tokens (cstr line) = [m, t, v])
    (hm : m = "GET".toList ∨ m = "HEAD".toList) (ht : t.length ≤ 2047)
    (hdd : ¬ "..".toList <:+: uri_path t) :
    route line = if is_cgi (uri_path t) then .execution m (uri_path t) (uri_query t)
      else .static_file m (uri_path t) := by
  have hm4 : m.length ≤ 4 := by rcases hm with h | h <;> subst h <;> decide
  rw [route_three_tokens line m t v [] htok hm4 ht]
  have h1 : ¬ (m ≠ "GET".toList ∧ m ≠ "HEAD".toList) := by
    rcases hm with h | h <;> simp [h]
  have h2 : ¬ strstr (uri_path t) "..".toList = true := by
    rw [strstr_iff_sub]; exact hdd
  rw [if_neg h1, if_neg h2]

theorem strstr_cgi_path (p : Str) :
    strstr ("/cgi-like/".toList ++ p) "..".toList = strstr p "..".toList := by
  have e : "/cgi-like/".toList ++ p
      = '/' :: 'c' :: 'g' :: 'i' :: '-' :: 'l' :: 'i' :: 'k' :: 'e' :: '/' :: p := rfl
  have d : "..".toList = ['.', '.'] := rfl
  rw [e, d]
  simp [strstr, List.isPrefixOf]

/-- One token gives fewer than three fields exactly when it fits the first
two fields, 4 + 2047 characters. -/
theorem scan_tokens_one (t1 : Str) : (scan_tokens [t1]).count ≠ 3 ↔ t1.length ≤ 2051 := by
  unfold scan_tokens
  by_cases h1 : t1.length ≤ 4
  · have e : next_field 4 [t1] = some (t1.take 4, []) := by simp [next_field, h1]
    rw [e]
    simp only [next_field]
    constructor
    · intro _; omega
    · intro _; decide
  · have e : next_field 4 [t1] = some (t1.take 4, [t1.drop 4]) := by simp [next_field, h1]
    rw [e]
    simp only
    by_cases h2 : (t1.drop 4).length ≤ 2047
    · have e2 : next_field 2047 [t1.drop 4] = some ((t1.drop 4).take 2047, []) := by
        simp only [next_field, h2, if_true]
      rw [e2]
      simp only [next_field]
      rw [List.length_drop] at h2
      constructor
      · intro _; omega
      · intro _; decide
    · have e2 : next_field 2047 [t1.drop 4]
          = some ((t1.drop 4).take 2047, [(t1.drop 4).drop 2047]) := by
        simp only [next_field, h2, if_false]
      rw [e2]
      simp only [next_field]
      rw [List.length_drop] at h2
      constructor
      · intro h; exact absurd rfl h
      · intro h; omega

/-- Two tokens give fewer than three fields exactly when each fits its field. -/
theorem scan_tokens_two (t1 t2 : Str) :
    (scan_tokens [t1, t2]).count ≠ 3 ↔ (t1.length ≤ 4 ∧ t2.length ≤ 2047) := by
  by_cases h1 : t1.length ≤ 4
  · by_cases h2 : t2.length ≤ 2047
    · have e : scan_tokens [t1, t2] = ⟨2, t1, t2, []⟩ := by
        simp [scan_tokens, next_field, h1, h2, List.take_of_length_le]
      rw [e]
      constructor
      · intro _; exact ⟨h1, h2⟩
      · intro _; show (2 : Int) ≠ 3; decide
    · have e : (scan_tokens [t1, t2]).count = 3 := by
        simp [scan_tokens, next_field, h1, h2]
      rw [e]
      constructor
      · intro h; exact absurd rfl h
      · intro h; exact absurd h.2 h2
  · have e : (scan_tokens [t1, t2]).count = 3 := by
      unfold scan_tokens
      have e1 : next_field 4 [t1, t2] = some (t1.take 4, [t1.drop 4, t2]) := by
        simp [next_field, h1]
      rw [e1]
      simp only
      obtain ⟨ts2, h2, h2c⟩ := next_field_cons 2047 (t1.drop 4) [t2]
      rw [h2]
      simp only
      rcases h2c with h | ⟨x, h⟩
      · rw [h]
        obtain ⟨ts3, h3, _⟩ := next_field_cons 15 t2 []
        rw [h3]
      · rw [h]
        obtain ⟨ts3, h3, _⟩ := next_field_cons 15 x [t2]
        rw [h3]
    rw [e]
    constructor
    · intro h; exact absurd rfl h
    · intro h; exact absurd h.1 h1

/-- A line is answered `400 Bad Request` exactly when `sscanf` does not
assign three fields. -/
theorem bad_request_iff_count (env : Env) (line : Str) (hfd : env.fdopen_ok = true)
    (hpos : 0 < line.length) :
    (handle_request_written env line).response = some bad_request ↔
      (sscanf_line (cstr line)).count ≠ 3 := by
  constructor
  · intro h hc
    exact handle_request_not_bad_request env line hc h
  · intro hc
    unfold handle_request_written
    rw [route_unscanned line hpos hc]
    simp [hfd]

/-! ## Lemmas: what reaches the connection -/

theorem handle_request_response (env : Env) (line : Str) :
    (handle_request env line).response
      = flush env line (handle_request_written env line).response := rfl

theorem handle_request_trace (env : Env) (line : Str) :
    (handle_request env line).trace = (handle_request_written env line).trace := rfl

theorem handle_request_fs (env : Env) (line : Str) :
    (handle_request env line).fs = (handle_request_written env line).fs := rfl

theorem handle_request_fault (env : Env) (line : Str) :
    (handle_request env line).fault = (handle_request_written env line).fault := rfl

/-- With no unread input in the buffer, what is written is sent. -/
theorem flush_eq (env : Env) (line : Str) (written : Option Response)
    (h : unread env line = []) : flush env line written = written := by
  unfold flush
  rw [if_pos h]

/-- What is sent was written. -/
theorem flush_some (env : Env) (line : Str) (written : Option Response) (r : Response)
    (h : flush env line written = some r) : written = some r := by
  unfold flush at h
  split_ifs at h
  exact h

/-- The fields scanned from three tokens or more, when the method fits its
buffer: the request-target is cut at 2047 characters. -/
theorem scan_tokens_three_any (m t v : Str) (rest : List Str) (hm : m.length ≤ 4) :
    (scan_tokens (m :: t :: v :: rest)).count = 3 ∧
      (scan_tokens (m :: t :: v :: rest)).method = m ∧
      (scan_tokens (m :: t :: v :: rest)).request_uri = t.take 2047 := by
  have e1 : next_field 4 (m :: t :: v :: rest) = some (m, t :: v :: rest) := by
    simp [next_field, hm, List.take_of_length_le]
  unfold scan_tokens
  rw [e1]
  simp only
  obtain ⟨ts2, h2, h2c⟩ := next_field_cons 2047 t (v :: rest)
  rw [h2]
  simp only
  rcases h2c with h | ⟨x, h⟩
  · rw [h]
    obtain ⟨ts3, h3, _⟩ := next_field_cons 15 v rest
    rw [h3]
    exact ⟨rfl, rfl, rfl⟩
  · rw [h]
    obtain ⟨ts3, h3, _⟩ := next_field_cons 15 x (v :: rest)
    rw [h3]
    exact ⟨rfl, rfl, rfl⟩

theorem takeWhile_take (p : Char → Bool) : ∀ (n : Nat) (l : Str),
    (l.take n).takeWhile p = (l.takeWhile p).take n := by
  intro n
  induction n with
  | zero => intro l; simp
  | succ k ih =>
    intro l
    cases l with
    | nil => simp
    | cons x xs =>
      by_cases hx : p x = true
      · rw [List.take_succ_cons, List.takeWhile_cons_of_pos hx, List.takeWhile_cons_of_pos hx,
          List.take_succ_cons, ih]
      · rw [List.take_succ_cons, List.takeWhile_cons_of_neg hx, List.takeWhile_cons_of_neg hx]
        rfl

/-- Cutting a request-target behind its path does not change the path. -/
theorem uri_path_take (t : Str) (n : Nat) (h : (uri_path t).length ≤ n) :
    uri_path (t.take n) = uri_path t := by
  unfold uri_path at *
  rw [takeWhile_take, List.take_of_length_le h]

/-- The routing of a `GET` line of three tokens, of any lengths. -/
theorem route_get_any (line t v : Str)
    (htok : tokens (cstr line) = ["GET".toList, t, v]) :
    route line =
      if strstr (uri_path (t.take 2047)) "..".toList then .reply forbidden
      else if is_cgi (uri_path (t.take 2047)) then
        .execution "GET".toList (uri_path (t.take 2047)) (uri_query (t.take 2047))
      else .static_file "GET".toList (uri_path (t.take 2047)) := by
  have hsc := scan_tokens_three_any "GET".toList t v [] (by decide)
  rw [← htok, ← sscanf_line_eq] at hsc
  have h1 : ¬ ("GET".toList ≠ "GET".toList ∧ "GET".toList ≠ "HEAD".toList) := by decide
  rw [route_scanned line hsc.1, hsc.2.1, hsc.2.2, if_neg h1]

/-! ## The request line

In the statements below a request line is read as `sscanf` reads it, as a C
string: its tokens are `tokens (cstr line)`, the tokens of its bytes before a
first NUL byte.  The hypothesis `env.fdopen_ok = true` says that the stream the
line is read from exists, and `unread env line = []` that no input behind the
line was read into the buffer of the stream with it. -/

set_option maxRecDepth 1000000 in
/-- C2, refuted as stated: a line of four tokens is parsed from its first
three and answered `404 Not Found`, not `400 Bad Request`; a line of two
tokens whose first token is longer than the 4 characters of the method buffer
is scanned into three fields and answered `404` as well; and for the line `GET`
read together with a header block, nothing reaches the connection. -/
theorem extra_tokens_not_bad_request :
    (tokens (cstr "GET /missing.html HTTP/1.0 extra\r\n".toList)).length = 4 ∧
      (handle_request env_bare "GET /missing.html HTTP/1.0 extra\r\n".toList).response
        = some not_found ∧
      (tokens (cstr "HEADX /\r\n".toList)).length = 2 ∧
      (handle_request env_bare "HEADX /\r\n".toList).response = some not_found ∧
      tokens (cstr "GET\r\n".toList) = ["GET".toList] ∧
      env_headers.pending = "Host: x\r\n\r\n".toList ∧
      (handle_request env_headers "GET\r\n".toList).response = none := by
  refine ⟨by decide, by decide, by decide, by decide, by decide, by decide, by decide⟩

/-- C2, amended: when no input behind the line was read into the buffer with
it, a line of exactly one token is answered with the `400 Bad Request` response
exactly when the token has at most 2051 characters (the widths 4 + 2047 of the
first two fields), and a line of exactly two tokens exactly when the first has
at most 4 and the second at most 2047 characters; a line of three or more
tokens is never answered `400`: `sscanf` takes its first three fields and
ignores what follows. -/
theorem short_line_bad_request (env : Env) (line : Str) (hfd : env.fdopen_ok = true) :
    (unread env line = [] →
      (∀ t1, tokens (cstr line) = [t1] →
        ((handle_request env line).response = some bad_request ↔ t1.length ≤ 2051)) ∧
      (∀ t1 t2, tokens (cstr line) = [t1, t2] →
        ((handle_request env line).response = some bad_request ↔
          (t1.length ≤ 4 ∧ t2.length ≤ 2047)))) ∧
      (3 ≤ (tokens (cstr line)).length →
        (handle_request env line).response ≠ some bad_request) := by
  refine ⟨?_, ?_⟩
  · intro hbuf
    refine ⟨?_, ?_⟩
    · intro t1 htok
      have hpos := tokens_cstr_ne_nil line (by rw [htok]; simp)
      rw [handle_request_response, flush_eq env line _ hbuf,
        bad_request_iff_count env line hfd hpos, sscanf_line_eq, htok]
      exact scan_tokens_one t1
    · intro t1 t2 htok
      have hpos := tokens_cstr_ne_nil line (by rw [htok]; simp)
      rw [handle_request_response, flush_eq env line _ hbuf,
        bad_request_iff_count env line hfd hpos, sscanf_line_eq, htok]
      exact scan_tokens_two t1 t2
  · intro h3 hresp
    rw [handle_request_response] at hresp
    have hw := flush_some env line _ _ hresp
    refine handle_request_not_bad_request env line ?_ hw
    rw [sscanf_line_eq]
    match htok : tokens (cstr line), h3 with
    | t1 :: t2 :: t3 :: rest, _ => exact (scan_tokens_count_three t1 t2 t3 rest).1

/-- The amended C2 at the lines `GET`, `GET /` and `GET / HTTP/1.0 x`. -/
theorem short_line_bad_request_witness :
    env_bare.fdopen_ok = true ∧ unread env_bare "GET\r\n".toList = [] ∧
      (handle_request env_bare "GET\r\n".toList).response = some bad_request ∧
      (handle_request env_bare "GET /\r\n".toList).response = some bad_request ∧
      (handle_request env_bare "GET / HTTP/1.0 x\r\n".toList).response ≠ some bad_request :=
  ⟨rfl, by decide,
    (((short_line_bad_request env_bare "GET\r\n".toList rfl).1 (by decide)).1 "GET".toList
      (by decide)).mpr (by decide),
    (((short_line_bad_request env_bare "GET /\r\n".toList rfl).1 (by decide)).2
      "GET".toList "/".toList (by decide)).mpr (by decide),
    (short_line_bad_request env_bare "GET / HTTP/1.0 x\r\n".toList rfl).2 (by decide)⟩

/-! ## The method -/

set_option maxRecDepth 1000000 in
/-- C3, refuted as stated: the first token `HEADX` is neither `GET` nor
`HEAD`, yet the line is not answered `501`: the method buffer holds `HEAD`,
the request-target becomes `X`, the file `X` is opened and the answer is
`404 Not Found`; the line of the three tokens `PUT` with a NUL byte behind it,
`/` and `HTTP/1.0` ends for `sscanf` behind `PUT` and is answered `400 Bad
Request`; and for the line `DELETE / HTTP/1.0` read together with a header
block, nothing reaches the connection. -/
theorem long_head_token_not_rejected :
    tokens (cstr "HEADX / HTTP/1.0\r\n".toList)
        = ["HEADX".toList, "/".toList, "HTTP/1.0".toList] ∧
      "HEADX".toList ≠ "GET".toList ∧ "HEADX".toList ≠ "HEAD".toList ∧
      (handle_request env_bare "HEADX / HTTP/1.0\r\n".toList).response = some not_found ∧
      (handle_request env_bare "HEADX / HTTP/1.0\r\n".toList).trace = [.open_ "X".toList] ∧
      tokens ("PUT".toList ++ '\x00' :: " / HTTP/1.0\r\n".toList)
        = ["PUT".toList ++ ['\x00'], "/".toList, "HTTP/1.0".toList] ∧
      (handle_request env_bare
        ("PUT".toList ++ '\x00' :: " / HTTP/1.0\r\n".toList)).response = some bad_request ∧
      tokens (cstr "DELETE / HTTP/1.0\r\n".toList)
        = ["DELETE".toList, "/".toList, "HTTP/1.0".toList] ∧
      (handle_request env_headers "DELETE / HTTP/1.0\r\n".toList).response = none := by
  refine ⟨by decide, by decide, by decide, by decide, by decide, by decide, by decide,
    by decide, by decide⟩

/-- C3, amended: for every line of three tokens whose first token is not
exactly `GET` and does not begin with `HEAD` (the method buffer keeps the first
four characters of the token), no file is opened and no program is run,
whatever the request-target is, and, when no input behind the line was read
into the buffer with it, the response is `501 Not Implemented`. -/
theorem other_method_not_implemented (env : Env) (line t1 t2 t3 : Str)
    (hfd : env.fdopen_ok = true) (htok : tokens (cstr line) = [t1, t2, t3])
    (hget : t1 ≠ "GET".toList) (hhead : t1.take 4 ≠ "HEAD".toList) :
    (unread env line = [] → (handle_request env line).response = some not_implemented) ∧
      (handle_request env line).trace = [] ∧
      (handle_request env line).fs = env.fs := by
  have hsc := scan_tokens_count_three t1 t2 t3 []
  rw [← htok, ← sscanf_line_eq] at hsc
  have hget4 : t1.take 4 ≠ "GET".toList := by
    intro h
    have hl := congrArg List.length h
    rw [List.length_take] at hl
    have hl3 : t1.length = 3 := by
      have : ("GET".toList).length = 3 := by decide
      omega
    rw [List.take_of_length_le (by omega)] at h
    exact hget h
  have hroute : route line = .reply not_implemented := by
    rw [route_scanned line hsc.1, hsc.2, if_pos ⟨hget4, hhead⟩]
  have hw : handle_request_written env line = ⟨some not_implemented, [], env.fs, none⟩ := by
    unfold handle_request_written
    rw [hroute]
    simp [hfd]
  refine ⟨?_, ?_, ?_⟩
  · intro hbuf
    rw [handle_request_response, flush_eq env line _ hbuf, hw]
  · rw [handle_request_trace, hw]
  · rw [handle_request_fs, hw]

/-- The amended C3 at the line `DELETE /../x HTTP/1.0`. -/
theorem other_method_not_implemented_witness :
    unread env_bare "DELETE /../x HTTP/1.0\r\n".toList = [] ∧
      (handle_request env_bare "DELETE /../x HTTP/1.0\r\n".toList).response
        = some not_implemented ∧
      (handle_request env_bare "DELETE /../x HTTP/1.0\r\n".toList).trace = [] ∧
      (handle_request env_bare "DELETE /../x HTTP/1.0\r\n".toList).fs = env_bare.fs :=
  ⟨by decide,
    (other_method_not_implemented env_bare "DELETE /../x HTTP/1.0\r\n".toList
      "DELETE".toList "/../x".toList "HTTP/1.0".toList rfl (by decide) (by decide)
      (by decide)).1 (by decide),
    (other_method_not_implemented env_bare "DELETE /../x HTTP/1.0\r\n".toList
      "DELETE".toList "/../x".toList "HTTP/1.0".toList rfl (by decide) (by decide)
      (by decide)).2⟩

/-! ## Directory traversal -/

set_option maxRecDepth 1000000 in
/-- C4, refuted as stated: for the line `GET /../x HTTP/1.0` read together
with a header block, nothing reaches the connection; and the line of the
three tokens `GET`, `/..` with a NUL byte behind it, and `HTTP/1.0`, whose path
contains `..`, ends for `sscanf` behind `/..` and is answered `400 Bad
Request`. -/
theorem dotdot_without_forbidden :
    tokens (cstr "GET /../x HTTP/1.0\r\n".toList)
        = ["GET".toList, "/../x".toList, "HTTP/1.0".toList] ∧
      env_headers.pending = "Host: x\r\n\r\n".toList ∧
      (handle_request env_headers "GET /../x HTTP/1.0\r\n".toList).response = none ∧
      tokens ("GET /..".toList ++ '\x00' :: " HTTP/1.0\r\n".toList)
        = ["GET".toList, "/..".toList ++ ['\x00'], "HTTP/1.0".toList] ∧
      (handle_request env_bare
        ("GET /..".toList ++ '\x00' :: " HTTP/1.0\r\n".toList)).response
        = some bad_request := by
  refine ⟨by decide, by decide, by decide, by decide, by decide⟩

/-- C4, amended: for every line of three tokens with method `GET` or `HEAD`
and a request-target of at most 2047 characters whose path (the text before
the first `?`) contains `..`, no file is opened and no program is spawned,
whether or not the path begins with `/cgi-like/`, and, when no input behind
the line was read into the buffer with it, the response is exactly the status
line `HTTP/1.0 403 Permission Denied`, `Content-Type: text/html`,
`Content-Length: 21` and the 21-byte body `403 Permission Denied`; and for
every line at all, a path that reaches the execution or the static handler is
free of `..`. -/
theorem dotdot_forbidden (env : Env) (line m t v : Str) (hfd : env.fdopen_ok = true)
    (htok : tokens (cstr line) = [m, t, v]) (hm : m = "GET".toList ∨ m = "HEAD".toList)
    (ht : t.length ≤ 2047) (hdd : "..".toList <:+: t.takeWhile (fun c => c != '?')) :
    ((unread env line = [] → (handle_request env line).response = some forbidden) ∧
      forbidden.wire = ("HTTP/1.0 403 Permission Denied\r\nContent-Type: text/html\r\n" ++
        "Content-Length: 21\r\n\r\n403 Permission Denied").toList ∧
      forbidden.body = "403 Permission Denied".toList ∧ forbidden.body.length = 21 ∧
      (handle_request env line).trace = [] ∧ (handle_request env line).fs = env.fs) ∧
    (∀ (line' method path : Str) (query : Option Str),
      (route line' = .execution method path query ∨ route line' = .static_file method path) →
        ¬ "..".toList <:+: path) := by
  constructor
  · have hm4 : m.length ≤ 4 := by rcases hm with h | h <;> subst h <;> decide
    have hroute : route line = .reply forbidden := by
      rw [route_three_tokens line m t v [] htok hm4 ht]
      have h1 : ¬ (m ≠ "GET".toList ∧ m ≠ "HEAD".toList) := by
        rcases hm with h | h <;> simp [h]
      have h2 : strstr (uri_path t) "..".toList = true := (strstr_iff_sub _ _).mpr hdd
      rw [if_neg h1, if_pos h2]
    have hw : handle_request_written env line = ⟨some forbidden, [], env.fs, none⟩ := by
      unfold handle_request_written
      rw [hroute]
      simp [hfd]
    refine ⟨?_, by decide, by decide, by decide, ?_, ?_⟩
    · intro hbuf
      rw [handle_request_response, flush_eq env line _ hbuf, hw]
    · rw [handle_request_trace, hw]
    · rw [handle_request_fs, hw]
  · intro line' method path query hr
    rw [← strstr_iff_sub]
    exact route_handler_path line' method path query hr

/-- The amended C4 at the lines `GET /cgi-like/../secret?x HTTP/1.0`
(execution prefix) and `HEAD /a/../b HTTP/1.0` (no such prefix). -/
theorem dotdot_forbidden_witness :
    (handle_request env_bare "GET /cgi-like/../secret?x HTTP/1.0\r\n".toList).response
        = some forbidden ∧
      (handle_request env_bare "GET /cgi-like/../secret?x HTTP/1.0\r\n".toList).trace = [] ∧
      (handle_request env_bare "HEAD /a/../b HTTP/1.0\r\n".toList).response
        = some forbidden :=
  ⟨(dotdot_forbidden env_bare "GET /cgi-like/../secret?x HTTP/1.0\r\n".toList
      "GET".toList "/cgi-like/../secret?x".toList "HTTP/1.0".toList rfl (by decide)
      (by decide) (by decide) (by decide)).1.1 (by decide),
    (dotdot_forbidden env_bare "GET /cgi-like/../secret?x HTTP/1.0\r\n".toList
      "GET".toList "/cgi-like/../secret?x".toList "HTTP/1.0".toList rfl (by decide)
      (by decide) (by decide) (by decide)).1.2.2.2.2.1,
    (dotdot_forbidden env_bare "HEAD /a/../b HTTP/1.0\r\n".toList
      "HEAD".toList "/a/../b".toList "HTTP/1.0".toList rfl (by decide)
      (by decide) (by decide) (by decide)).1.1 (by decide)⟩

/-! ## HEAD -/

set_option maxRecDepth 1000000 in
/-- C5, the code against the claim: the valid line `HEAD /missing.html
HTTP/1.0`, for a file that is missing, is answered with the 13 body bytes `404
Not Found` after the blank line, as `GET` is; for a file that exists, `HEAD
/index.html HTTP/1.0` is answered `200 OK` without a body, by the test of the
method at line 324 that the error paths lack. -/
theorem head_error_has_body :
    tokens (cstr "HEAD /missing.html HTTP/1.0\r\n".toList)
        = ["HEAD".toList, "/missing.html".toList, "HTTP/1.0".toList] ∧
      (handle_request env_bare "HEAD /missing.html HTTP/1.0\r\n".toList).response
        = some not_found ∧
      not_found.body = "404 Not Found".toList ∧ not_found.body.length = 13 ∧
      (handle_request env_bare "GET /missing.html HTTP/1.0\r\n".toList).response
        = some not_found ∧
      (handle_request env_index "HEAD /index.html HTTP/1.0\r\n".toList).response
        = some (ok_response 5 []) ∧
      (handle_request env_index "GET /index.html HTTP/1.0\r\n".toList).response
        = some (ok_response 5 "hello".toList) := by
  refine ⟨by decide, by decide, by decide, by decide, by decide, by decide, by decide⟩

/-! ## Static files -/

set_option maxRecDepth 1000000 in
/-- C6, refuted as stated: the path `deep_path` has 1024 characters, begins
with `/`, has no `..`, is not routed to the execution handler, and names the
existing readable file `hello`; the handler opens the first 1023 characters of
`.` followed by the path, which name no file, and answers `404 Not Found`; and
for the line `GET /index.html HTTP/1.0` read together with a header block,
the file `index.html` is opened and nothing reaches the connection. -/
theorem long_path_not_served :
    deep_path.length = 1024 ∧ deep_path.head? = some '/' ∧
      strstr deep_path "..".toList = false ∧ is_cgi deep_path = false ∧
      env_deep.fs ('.' :: deep_path) = some "hello".toList ∧
      env_deep.open_ok ('.' :: deep_path) = true ∧
      (handle_request env_deep
        ("GET ".toList ++ deep_path ++ " HTTP/1.0\r\n".toList)).response = some not_found ∧
      (handle_request env_deep
        ("GET ".toList ++ deep_path ++ " HTTP/1.0\r\n".toList)).trace
        = [.open_ (('.' :: deep_path).take 1023)] ∧
      env_index_headers.fs "./index.html".toList = some "hello".toList ∧
      env_index_headers.pending = "Host: x\r\n\r\n".toList ∧
      (handle_request env_index_headers "GET /index.html HTTP/1.0\r\n".toList).trace
        = [.open_ "./index.html".toList] ∧
      (handle_request env_index_headers "GET /index.html HTTP/1.0\r\n".toList).response
        = none := by
  refine ⟨by decide, by decide, by decide, by decide, by decide, by decide, by decide,
    by decide, by decide, by decide, by decide, by decide⟩

/-- C6, amended: for every `GET` line whose path has at most 1022 characters
(so that `.` followed by the path fits the 1024-byte buffer `filepath`),
begins with `/`, is free of `..`, is not routed to the execution handler, and
names an existing readable file `F` at `.` followed by the path, the file
opened is the one the path names, and, when no input behind the line was read
into the buffer with it, the response is `200 OK` with a Content-Length that
is the decimal of the byte size of `F` and a body that is exactly the bytes of
`F`. -/
theorem static_get_serves_file (env : Env) (line t v F : Str) (hfd : env.fdopen_ok = true)
    (htok : tokens (cstr line) = ["GET".toList, t, v])
    (hslash : (uri_path t).head? = some '/')
    (hdd : ¬ "..".toList <:+: uri_path t)
    (hcgi : is_cgi (uri_path t) = false)
    (hlen : (uri_path t).length ≤ 1022)
    (hF : env.fs ('.' :: uri_path t) = some F)
    (hopen : env.open_ok ('.' :: uri_path t) = true)
    (hstat : env.fstat_ok ('.' :: uri_path t) = true) :
    (unread env line = [] →
        (handle_request env line).response
          = some ⟨"HTTP/1.0 200 OK".toList, fmt_d F.length, F⟩) ∧
      (handle_request env line).trace = [.open_ ('.' :: uri_path t)] := by
  have hpath : uri_path (t.take 2047) = uri_path t := uri_path_take t 2047 (by omega)
  have hroute : route line = .static_file "GET".toList (uri_path t) := by
    rw [route_get_any line t v htok, hpath]
    have h2 : ¬ strstr (uri_path t) "..".toList = true := by
      rw [strstr_iff_sub]; exact hdd
    rw [if_neg h2, hcgi]
    simp
  have hfp : snprintf 1024 ('.' :: uri_path t) = '.' :: uri_path t := by
    unfold snprintf
    apply List.take_of_length_le
    simp only [List.length_cons]; omega
  have hw : handle_request_written env line = handle_static env "GET".toList (uri_path t) := by
    unfold handle_request_written
    rw [hroute]
    simp only [hfd, if_true]
  have hs : (handle_static env "GET".toList (uri_path t)).response
        = some ⟨"HTTP/1.0 200 OK".toList, fmt_d F.length, F⟩ ∧
      (handle_static env "GET".toList (uri_path t)).trace = [.open_ ('.' :: uri_path t)] := by
    unfold handle_static
    simp only [hslash, if_true, hfp, open_rdonly, hopen, hF, hstat, copy_file_eq, ok_response]
    simp
  refine ⟨?_, ?_⟩
  · intro hbuf
    rw [handle_request_response, flush_eq env line _ hbuf, hw]
    exact hs.1
  · rw [handle_request_trace, hw]
    exact hs.2

/-- The amended C6 at `GET /index.html?x=1 HTTP/1.0`, a file of five bytes. -/
theorem static_get_serves_file_witness :
    unread env_index "GET /index.html?x=1 HTTP/1.0\r\n".toList = [] ∧
      (handle_request env_index "GET /index.html?x=1 HTTP/1.0\r\n".toList).response
        = some ⟨"HTTP/1.0 200 OK".toList, fmt_d 5, "hello".toList⟩ :=
  ⟨by decide,
    (static_get_serves_file env_index
      "GET /index.html?x=1 HTTP/1.0\r\n".toList "/index.html?x=1".toList "HTTP/1.0".toList
      "hello".toList rfl (by decide) (by decide) (by decide) (by decide) (by decide)
      (by decide) rfl rfl).1 (by decide)⟩

/-! ## The argument vector -/

set_option maxRecDepth 1000000 in
/-- C7, refuted as stated: the program name `long_prog` is non-empty, free of
`..` and 1026 characters long; the vector handed to `execvp` holds its first
1023 characters, the size of the buffer `program_name`, not the name itself.
And the request-target `/cgi-like/echo?` followed by the query `long_query`,
one token of 2040 characters, has 2055 characters; `sscanf` keeps 2047 of
them and the vector handed to `execvp` holds the first 2032 characters of the
token, not the token. -/
theorem long_program_name_cut :
    long_prog.length = 1026 ∧ strstr long_prog "..".toList = false ∧
      (handle_request env_bare
        ("GET /cgi-like/".toList ++ long_prog ++ " HTTP/1.0\r\n".toList)).trace
        = [.spawn 4242, .execvp [long_prog.take 1023]] ∧
      long_prog.take 1023 ≠ long_prog ∧
      ("/cgi-like/echo?".toList ++ long_query).length = 2055 ∧
      query_pieces long_query = [long_query] ∧
      (handle_request env_bare
        ("GET /cgi-like/echo?".toList ++ long_query ++ " HTTP/1.0\r\n".toList)).trace
        = [.spawn 4242, .execvp ["echo".toList, long_query.take 2032]] ∧
      long_query.take 2032 ≠ long_query := by
  refine ⟨by decide, by decide, by decide, by decide, by decide!, by decide!, by decide!,
    by decide!⟩

/-- C7, amended: for every `GET` or `HEAD` line whose request-target has at
most 2047 characters and whose path is `/cgi-like/` followed by a non-empty
program name `p` of at most 1023 characters, free of `..`, and whose query has
at most 254 tokens, the only argument vector handed
to `execvp` is `p` followed by the non-empty `&`-separated pieces of the
query, verbatim and in order, and it is handed over exactly when the signal
mask, `fork` and the child's `open`, `dup2` and `chdir` succeed; an absent or
empty query gives the vector `[p]`. -/
theorem cgi_argument_vector (env : Env) (line m t v p : Str) (hfd : env.fdopen_ok = true)
    (htok : tokens (cstr line) = [m, t, v]) (hm : m = "GET".toList ∨ m = "HEAD".toList)
    (ht : t.length ≤ 2047) (hpath : uri_path t = "/cgi-like/".toList ++ p) (hp : p ≠ [])
    (hplen : p.length ≤ 1023) (hdd : ¬ "..".toList <:+: p)
    (hn : (uri_args t).length ≤ 254) :
    (∀ args, Effect.execvp args ∈ (handle_request env line).trace ↔
      (args = p :: uri_args t ∧ env.sigblock_ok = true ∧ env.fork.isSome = true ∧
        env.child_open_ok = true ∧ env.dup2_ok = true ∧ env.chdir_ok = true)) ∧
      (handle_request env line).fault = none ∧
      ((uri_query t = none ∨ uri_query t = some []) → p :: uri_args t = [p]) := by
  have hdd2 : ¬ "..".toList <:+: uri_path t := by
    rw [hpath, ← strstr_iff_sub, strstr_cgi_path, strstr_iff_sub]
    exact hdd
  have hcgi : is_cgi (uri_path t) = true := by
    have hpos : 0 < p.length := List.length_pos.mpr hp
    have h10 : ("/cgi-like/".toList).length = 10 := by decide
    unfold is_cgi
    rw [hpath, List.take_left' h10, List.length_append, h10]
    simp only [beq_self_eq_true, Bool.true_and, decide_eq_true_eq]
    omega
  have hroute := route_get_head line m t v htok hm ht hdd2
  rw [hcgi, if_pos rfl] at hroute
  have hname : snprintf 1024 ((uri_path t).drop 10) = p := by
    have h10 : ("/cgi-like/".toList).length = 10 := by decide
    rw [hpath, List.drop_left' h10]
    exact List.take_of_length_le hplen
  have hres : handle_request_written env line
      = handle_cgi env m (uri_path t) (uri_query t) := by
    unfold handle_request_written
    rw [hroute]
    simp only [hfd, if_true]
  have hargs : stored_args p (uri_query t) = p :: uri_args t := by
    rw [stored_args_uri, List.take_of_length_le hn]
  have hcore := handle_cgi_execvp env m (uri_path t) (uri_query t)
  rw [hname, hargs] at hcore
  refine ⟨?_, ?_, ?_⟩
  · intro args
    rw [handle_request_trace, hres]
    exact (hcore args).1
  · rw [handle_request_fault, hres]
    exact (hcore []).2
  · intro hq
    unfold uri_args
    rcases hq with h | h
    · rw [h]
    · rw [h]; rfl

/-- The amended C7 at `GET /cgi-like/echo?a&b&c HTTP/1.0`: the program
receives exactly `[echo, a, b, c]`. -/
theorem cgi_argument_vector_witness :
    Effect.execvp ["echo".toList, "a".toList, "b".toList, "c".toList] ∈
      (handle_request env_true "GET /cgi-like/echo?a&b&c HTTP/1.0\r\n".toList).trace :=
  ((cgi_argument_vector env_true "GET /cgi-like/echo?a&b&c HTTP/1.0\r\n".toList
    "GET".toList "/cgi-like/echo?a&b&c".toList "HTTP/1.0".toList "echo".toList rfl
    (by decide) (by decide) (by decide) (by decide) (by decide) (by decide) (by decide)
    (by decide)).1 ["echo".toList, "a".toList, "b".toList, "c".toList]).mpr
    ⟨by decide, rfl, rfl, rfl, rfl, rfl⟩

set_option maxRecDepth 1000000 in
/-- C9, refuted as stated: the query `many_args` has 255 tokens, so the
vector of the claim would hold the program name and min(255, 255) = 255
tokens, 256 strings; the vector handed to `execvp` holds the program name and
254 tokens, 255 strings. -/
theorem argument_cap_is_254 :
    (query_pieces many_args).length = 255 ∧
      ("echo".toList :: (query_pieces many_args).take (min 255 255)).length = 256 ∧
      (handle_request env_bare
        ("GET /cgi-like/echo?".toList ++ many_args ++ " HTTP/1.0\r\n".toList)).trace
        = [.spawn 4242, .execvp ("echo".toList :: List.replicate 254 "x".toList)] ∧
      ("echo".toList :: List.replicate 254 "x".toList).length = 255 := by
  refine ⟨by decide, by decide, by decide, by decide⟩

/-- C9, amended: for every request routed to the execution handler, with a
query of n tokens, the only argument vector handed to `execvp` is the program
name as the 1024-byte buffer holds it (its first 1023 characters) followed by
exactly the first min(n, 254) query tokens in order; the tokens beyond the
cap are dropped without a fault, and the overflow never turns the response
into an error: when the system calls succeed, the program run on that vector
exits with status 0 and no input behind the line was read into the buffer
with it, the response is `200 OK` with the program's output. -/
theorem cgi_argument_cap (env : Env) (line m t v : Str) (hfd : env.fdopen_ok = true)
    (htok : tokens (cstr line) = [m, t, v]) (hm : m = "GET".toList ∨ m = "HEAD".toList)
    (ht : t.length ≤ 2047) (hdd : ¬ "..".toList <:+: uri_path t)
    (hcgi : is_cgi (uri_path t) = true) :
    (∀ args, Effect.execvp args ∈ (handle_request env line).trace ↔
      (args = ((uri_path t).drop 10).take 1023 :: (uri_args t).take 254 ∧
        env.sigblock_ok = true ∧ env.fork.isSome = true ∧
        env.child_open_ok = true ∧ env.dup2_ok = true ∧ env.chdir_ok = true)) ∧
      ((uri_args t).take 254).length = min (uri_args t).length 254 ∧
      (handle_request env line).fault = none ∧
      (∀ pid out, unread env line = [] → env.sigblock_ok = true → env.fork = some pid →
        env.child_open_ok = true → env.dup2_ok = true → env.chdir_ok = true →
        env.exec (((uri_path t).drop 10).take 1023 :: (uri_args t).take 254)
          = some (out, .exited 0) →
        env.waitpid_ok = true → env.sigrestore_ok = true →
        env.open_ok (temp_filename pid) = true → env.fstat_ok (temp_filename pid) = true →
        (handle_request env line).response =
          some (ok_response out.length (if m = "GET".toList then out else []))) := by
  have hroute := route_get_head line m t v htok hm ht hdd
  rw [hcgi, if_pos rfl] at hroute
  have hres : handle_request_written env line
      = handle_cgi env m (uri_path t) (uri_query t) := by
    unfold handle_request_written
    rw [hroute]
    simp only [hfd, if_true]
  have hargs : stored_args (snprintf 1024 ((uri_path t).drop 10)) (uri_query t)
      = ((uri_path t).drop 10).take 1023 :: (uri_args t).take 254 := by
    rw [stored_args_uri]; rfl
  have hcore := handle_cgi_execvp env m (uri_path t) (uri_query t)
  rw [hargs] at hcore
  refine ⟨?_, ?_, ?_, ?_⟩
  · intro args
    rw [handle_request_trace, hres]
    exact (hcore args).1
  · rw [List.length_take, Nat.min_comm]
  · rw [handle_request_fault, hres]
    exact (hcore []).2
  · intro pid out hbuf hs hf ho hd hc he hw hr hopen hstat
    rw [handle_request_response, flush_eq env line _ hbuf, hres]
    exact handle_cgi_ok env m (uri_path t) (uri_query t) pid out hs hf ho hd hc
      (by rw [hargs]; exact he) hw hr hopen hstat

set_option maxRecDepth 1000000 in
/-- The amended C9 at a query of 255 tokens: the response is `200 OK`. -/
theorem cgi_argument_cap_witness :
    (handle_request env_true
        ("GET /cgi-like/echo?".toList ++ many_args ++ " HTTP/1.0\r\n".toList)).response
      = some (ok_response 2 "ok".toList) :=
  (cgi_argument_cap env_true
    ("GET /cgi-like/echo?".toList ++ many_args ++ " HTTP/1.0\r\n".toList)
    "GET".toList ("/cgi-like/echo?".toList ++ many_args) "HTTP/1.0".toList rfl
    (by decide) (by decide) (by decide) (by decide) (by decide)).2.2.2 4242 "ok".toList
    (by decide) rfl rfl rfl rfl rfl rfl rfl rfl rfl rfl

/-- C10: for every program name and every query string, or none, lines
108-122 end without a fault; every store into `args`, the final `args[arg_count]
= NULL` included, writes at an index below 256, the size of the array; after
the program name is stored the counter `arg_count` stays between 1 and 255; the
resulting array holds strings below `arg_count` and NULL at `arg_count`, so the
vector is NULL-terminated inside the array and has at most 255 entries, the
program name included. -/
theorem args_within_bounds (program_name : Str) (query : Option Str) :
    ∃ a, build_args program_name query = .ok a ∧ a.args.length = 256 ∧
      (∀ i ∈ a.stores, i < 256) ∧
      a.counts.head? = some 0 ∧ (∀ c ∈ a.counts.tail, 1 ≤ c ∧ c ≤ 255) ∧
      1 ≤ a.arg_count ∧ a.arg_count ≤ 255 ∧
      a.args[a.arg_count]? = some .null ∧
      (∀ i, i < a.arg_count → ∃ s, a.args[i]? = some (.ptr s)) ∧
      (argv a.args).length = a.arg_count ∧ (argv a.args).length ≤ 255 := by
  obtain ⟨a, rest, hb, hargs, hlen, hcount, hle, hst, hct⟩ := build_args_spec program_name query
  have hpos : 1 ≤ a.arg_count := by
    rw [hcount]; unfold stored_args; simp
  have hv : argv a.args = stored_args program_name query := by
    rw [hargs, argv_map_ptr]
  refine ⟨a, hb, hlen, ?_, ?_, ?_, hpos, hle, ?_, ?_, ?_, ?_⟩
  · intro i hi
    rw [hst, List.mem_range] at hi
    omega
  · rw [hct, List.range_succ_eq_map]; rfl
  · intro c hc
    rw [hct, List.range_succ_eq_map, List.tail_cons, List.mem_map] at hc
    obtain ⟨k, hk, hkc⟩ := hc
    rw [List.mem_range] at hk
    omega
  · rw [hargs, hcount, List.getElem?_append_right (by simp)]
    simp
  · intro i hi
    rw [hcount] at hi
    refine ⟨(stored_args program_name query)[i], ?_⟩
    rw [hargs, List.getElem?_append_left (by simpa using hi)]
    simp [hi]
  · rw [hv, hcount]
  · rw [hv, ← hcount]; exact hle

/-! ## Error responses and the sink -/

set_option maxRecDepth 1000000 in
/-- C1, the code against the claim: `GET /cgi-like/nosuch HTTP/1.0`, for a
program that does not exist, is answered with the `500 Internal Error`
response, whose header declares `Content-Length: 21` while the body written,
`500 Internal Error`, has 18 bytes; the 400, 403, 404 and 501 responses declare
the length of their bodies. -/
theorem internal_error_length_mismatch :
    (handle_request env_bare "GET /cgi-like/nosuch HTTP/1.0\r\n".toList).response
        = some internal_error ∧
      internal_error.content_length = "21".toList ∧
      internal_error.body = "500 Internal Error".toList ∧
      internal_error.body.length = 18 ∧
      bad_request.content_length = fmt_d bad_request.body.length ∧
      forbidden.content_length = fmt_d forbidden.body.length ∧
      not_found.content_length = fmt_d not_found.body.length ∧
      not_implemented.content_length = fmt_d not_implemented.body.length := by
  refine ⟨by decide, by decide, by decide, by decide, by decide, by decide, by decide,
    by decide⟩

set_option maxRecDepth 1000000 in
/-- C8, the code against the claim: `GET /cgi-like/false HTTP/1.0`, for a
program that exits with status 1: the child 4242 is spawned and creates the
sink `temp_output_4242.txt`, the response is `500 Internal Error`, `unlink` is
not called and the sink is still there when the handler returns; when the
program exits with status 0 the sink is removed. -/
theorem sink_left_after_child_failure :
    temp_filename 4242 = "temp_output_4242.txt".toList ∧
      env_false.fs (temp_filename 4242) = none ∧
      (handle_request env_false "GET /cgi-like/false HTTP/1.0\r\n".toList).response
        = some internal_error ∧
      (handle_request env_false "GET /cgi-like/false HTTP/1.0\r\n".toList).trace
        = [.spawn 4242, .execvp ["false".toList]] ∧
      (handle_request env_false "GET /cgi-like/false HTTP/1.0\r\n".toList).fs
        (temp_filename 4242) = some [] ∧
      (handle_request env_true "GET /cgi-like/true HTTP/1.0\r\n".toList).fs
        (temp_filename 4242) = none := by
  refine ⟨by decide, by decide, by decide, by decide, by decide, by decide⟩

end Httpd
